import Mathlib

set_option maxHeartbeats 1000000

/-!
Verification of the event normalization and query-filter pipeline of the
events mini-app backend (files `backend/events_api.py`, `backend/database.py`,
`backend/app.py`).

The embedding models Python JSON values by the type `JVal` (mutually inductive
with `JArr` for JSON arrays and `JObj` for JSON objects), Python `dict.get`
by `pyGet` (an `Except Unit` computation: `.error ()` models a raised
exception such as `AttributeError`), Python truthiness by `pyTruthy`, and the
standard-library `json.dumps` / `json.loads` pair by the executable printer
`dumpVal` and parser `jsonLoads` below.  JSON numbers are modelled as
integers.  Timestamps produced by the database (`CURRENT_TIMESTAMP`) are
modelled as abstract `Nat` clock values supplied by the caller.
-/

mutual
/-- JSON value, as handled by the Python code: null, booleans, numbers
(modelled as integers), strings, arrays and objects. -/
inductive JVal where
  | null
  | bool (b : Bool)
  | num (n : Int)
  | str (s : String)
  | arr (elems : JArr)
  | obj (fields : JObj)

inductive JArr where
  | nil
  | cons (hd : JVal) (tl : JArr)

inductive JObj where
  | nil
  | cons (key : String) (val : JVal) (tl : JObj)
end

mutual
/-- Boolean equality test on JSON values. -/
def jeqV : JVal → JVal → Bool
  | .null, .null => true
  | .bool a, .bool b => a = b
  | .num a, .num b => a = b
  | .str a, .str b => a = b
  | .arr xs, .arr ys => jeqA xs ys
  | .obj xs, .obj ys => jeqO xs ys
  | _, _ => false

/-- Boolean equality test on JSON arrays. -/
def jeqA : JArr → JArr → Bool
  | .nil, .nil => true
  | .cons x xs, .cons y ys => jeqV x y && jeqA xs ys
  | _, _ => false

/-- Boolean equality test on JSON objects. -/
def jeqO : JObj → JObj → Bool
  | .nil, .nil => true
  | .cons k1 v1 xs, .cons k2 v2 ys => decide (k1 = k2) && jeqV v1 v2 && jeqO xs ys
  | _, _ => false
end

mutual
theorem jeqV_eq : ∀ (a b : JVal), jeqV a b = true ↔ a = b
  | .null, b => by cases b <;> simp [jeqV]
  | .bool a, b => by cases b <;> simp [jeqV]
  | .num a, b => by cases b <;> simp [jeqV]
  | .str a, b => by cases b <;> simp [jeqV]
  | .arr xs, b => by
      cases b with
      | arr ys => simp only [jeqV, JVal.arr.injEq]; exact jeqA_eq xs ys
      | null => simp [jeqV]
      | bool b => simp [jeqV]
      | num n => simp [jeqV]
      | str s => simp [jeqV]
      | obj o => simp [jeqV]
  | .obj xs, b => by
      cases b with
      | obj ys => simp only [jeqV, JVal.obj.injEq]; exact jeqO_eq xs ys
      | null => simp [jeqV]
      | bool b => simp [jeqV]
      | num n => simp [jeqV]
      | str s => simp [jeqV]
      | arr a => simp [jeqV]

theorem jeqA_eq : ∀ (a b : JArr), jeqA a b = true ↔ a = b
  | .nil, b => by cases b <;> simp [jeqA]
  | .cons x xs, b => by
      cases b with
      | nil => simp [jeqA]
      | cons y ys =>
        simp only [jeqA, Bool.and_eq_true, JArr.cons.injEq]
        rw [jeqV_eq x y, jeqA_eq xs ys]

theorem jeqO_eq : ∀ (a b : JObj), jeqO a b = true ↔ a = b
  | .nil, b => by cases b <;> simp [jeqO]
  | .cons k1 v1 xs, b => by
      cases b with
      | nil => simp [jeqO]
      | cons k2 v2 ys =>
        simp only [jeqO, Bool.and_eq_true, JObj.cons.injEq, decide_eq_true_eq]
        rw [jeqV_eq v1 v2, jeqO_eq xs ys]
        tauto
end

instance : DecidableEq JVal := fun a b => decidable_of_iff (jeqV a b = true) (jeqV_eq a b)

instance : DecidableEq JArr := fun a b => decidable_of_iff (jeqA a b = true) (jeqA_eq a b)

instance : DecidableEq JObj := fun a b => decidable_of_iff (jeqO a b = true) (jeqO_eq a b)

/-- Builds a JSON array from a Lean list (notation helper for examples). -/
def jarr : List JVal → JArr
  | [] => .nil
  | x :: xs => .cons x (jarr xs)

/-- The opening-brace character (written via its code point). -/
def lbrace : Char := Char.ofNat 123

/-- The closing-brace character (written via its code point). -/
def rbrace : Char := Char.ofNat 125

/-- JSON whitespace recognizer. -/
def isWsCh (c : Char) : Bool := c = ' ' || c = '\n' || c = '\t' || c = '\r'

/-- ASCII decimal digit recognizer. -/
def isDigitCh (c : Char) : Bool := 48 ≤ c.toNat && c.toNat ≤ 57

/-- The ASCII digit character for `d < 10`. -/
def digitChar (d : Nat) : Char := Char.ofNat (48 + d)

/-- Decimal printing of a natural number, most significant digit first.
Fueled so that it is structurally recursive; `dumpNat` supplies enough fuel. -/
def dumpNatAux : Nat → Nat → List Char → List Char
  | 0, _, acc => acc
  | fuel + 1, n, acc =>
    if n < 10 then digitChar n :: acc
    else dumpNatAux fuel (n / 10) (digitChar (n % 10) :: acc)

/-- Decimal representation of a natural number. -/
def dumpNat (n : Nat) : List Char := dumpNatAux (n + 1) n []

/-- Decimal representation of an integer, with a leading minus sign when
negative (the format produced by `json.dumps` for integers). -/
def dumpInt (n : Int) : List Char :=
  if n < 0 then '-' :: dumpNat n.natAbs else dumpNat n.natAbs

/-- String escaping used by the serializer: quote, backslash and the common
control characters get a backslash escape; other characters pass through. -/
def escapeChar (c : Char) : List Char :=
  if c = '"' then ['\\', '"']
  else if c = '\\' then ['\\', '\\']
  else if c = '\n' then ['\\', 'n']
  else if c = '\t' then ['\\', 't']
  else if c = '\r' then ['\\', 'r']
  else [c]

/-- Escapes every character of a string body. -/
def escapeStr : List Char → List Char
  | [] => []
  | c :: cs => escapeChar c ++ escapeStr cs

mutual
/-- Model of `json.dumps` (default separators: comma-space and colon-space). -/
def dumpVal (v : JVal) : List Char :=
  match v with
  | .null => ['n', 'u', 'l', 'l']
  | .num n => dumpInt n
  | .str s => '"' :: escapeStr s.data ++ ['"']
  | .bool b => if b then ['t', 'r', 'u', 'e'] else ['f', 'a', 'l', 's', 'e']
  | .arr .nil => ['[', ']']
  | .arr (.cons x xs) => '[' :: dumpVal x ++ dumpElems xs ++ [']']
  | .obj .nil => [lbrace, rbrace]
  | .obj (.cons k v kvs) =>
      lbrace :: '"' :: escapeStr k.data ++ '"' :: ':' :: ' ' :: dumpVal v ++ dumpMembers kvs ++ [rbrace]
termination_by structural v

/-- Serialization of the tail of a JSON array (comma-space separated). -/
def dumpElems (a : JArr) : List Char :=
  match a with
  | .nil => []
  | .cons x xs => ',' :: ' ' :: dumpVal x ++ dumpElems xs
termination_by structural a

/-- Serialization of the tail of a JSON object (comma-space separated). -/
def dumpMembers (o : JObj) : List Char :=
  match o with
  | .nil => []
  | .cons k v kvs =>
      ',' :: ' ' :: '"' :: escapeStr k.data ++ '"' :: ':' :: ' ' :: dumpVal v ++ dumpMembers kvs
termination_by structural o
end

/-- Serialization of one key/value member of a JSON object. -/
def dumpKV (k : String) (v : JVal) : List Char :=
  '"' :: escapeStr k.data ++ '"' :: ':' :: ' ' :: dumpVal v

/-- Inverse of `escapeChar` on the character following a backslash. -/
def unescapeChar (c : Char) : Option Char :=
  if c = '"' then some '"'
  else if c = '\\' then some '\\'
  else if c = '/' then some '/'
  else if c = 'n' then some '\n'
  else if c = 't' then some '\t'
  else if c = 'r' then some '\r'
  else if c = 'b' then some (Char.ofNat 8)
  else if c = 'f' then some (Char.ofNat 12)
  else none

/-- Parses a string body up to (and consuming) the closing quote. -/
def parseStr : List Char → Option (List Char × List Char)
  | [] => none
  | c :: rest =>
    if c = '"' then some ([], rest)
    else if c = '\\' then
      match rest with
      | [] => none
      | e :: rest2 =>
        match unescapeChar e, parseStr rest2 with
        | some u, some (s, r) => some (u :: s, r)
        | _, _ => none
    else
      match parseStr rest with
      | some (s, r) => some (c :: s, r)
      | none => none

/-- The numeric value of a list of ASCII digits, most significant first. -/
def digitsVal (ds : List Char) : Nat :=
  ds.foldl (fun a c => a * 10 + (c.toNat - 48)) 0

/-- Parses a maximal nonempty run of digits into a natural number. -/
def parseNatPart (cs : List Char) : Option (Nat × List Char) :=
  let ds := cs.takeWhile isDigitCh
  if ds.isEmpty then none
  else some (digitsVal ds, cs.dropWhile isDigitCh)

/-- Skips JSON whitespace. -/
def skipWs (cs : List Char) : List Char := cs.dropWhile isWsCh

mutual
/-- Model of the JSON value grammar of `json.loads`, as a fueled
recursive-descent parser that returns the parsed value and the unread
remainder of the input. -/
def parseVal : Nat → List Char → Option (JVal × List Char)
  | 0, _ => none
  | fuel + 1, cs =>
    match skipWs cs with
    | [] => none
    | c :: rest =>
      if c = 'n' then
        match rest with
        | 'u' :: 'l' :: 'l' :: r => some (.null, r)
        | _ => none
      else if c = 't' then
        match rest with
        | 'r' :: 'u' :: 'e' :: r => some (.bool true, r)
        | _ => none
      else if c = 'f' then
        match rest with
        | 'a' :: 'l' :: 's' :: 'e' :: r => some (.bool false, r)
        | _ => none
      else if c = '"' then
        match parseStr rest with
        | some (s, r) => some (.str (String.mk s), r)
        | none => none
      else if c = '[' then
        match skipWs rest with
        | [] => none
        | c2 :: r2 =>
          if c2 = ']' then some (.arr .nil, r2)
          else
            match parseElems fuel (c2 :: r2) with
            | some (xs, r) => some (.arr xs, r)
            | none => none
      else if c = lbrace then
        match skipWs rest with
        | [] => none
        | c2 :: r2 =>
          if c2 = rbrace then some (.obj .nil, r2)
          else
            match parseMembers fuel (c2 :: r2) with
            | some (kvs, r) => some (.obj kvs, r)
            | none => none
      else if c = '-' then
        match parseNatPart rest with
        | some (m, r) => some (.num (-(m : Int)), r)
        | none => none
      else if isDigitCh c then
        match parseNatPart (c :: rest) with
        | some (m, r) => some (.num (m : Int), r)
        | none => none
      else none

/-- Parses the comma-separated elements of a nonempty JSON array, consuming
the closing bracket. -/
def parseElems : Nat → List Char → Option (JArr × List Char)
  | 0, _ => none
  | fuel + 1, cs =>
    match parseVal fuel cs with
    | none => none
    | some (v, r) =>
      match skipWs r with
      | [] => none
      | c :: r2 =>
        if c = ',' then
          match parseElems fuel r2 with
          | some (vs, r3) => some (.cons v vs, r3)
          | none => none
        else if c = ']' then some (.cons v .nil, r2)
        else none

/-- Parses the comma-separated members of a nonempty JSON object, consuming
the closing brace. -/
def parseMembers : Nat → List Char → Option (JObj × List Char)
  | 0, _ => none
  | fuel + 1, cs =>
    match skipWs cs with
    | [] => none
    | c :: rest =>
      if c = '"' then
        match parseStr rest with
        | some (k, r) =>
          (match skipWs r with
           | ':' :: r2 =>
             match parseVal fuel r2 with
             | some (v, r3) =>
               (match skipWs r3 with
                | [] => none
                | c4 :: r4 =>
                  if c4 = ',' then
                    match parseMembers fuel r4 with
                    | some (kvs, r5) => some (.cons (String.mk k) v kvs, r5)
                    | none => none
                  else if c4 = rbrace then some (.cons (String.mk k) v .nil, r4)
                  else none)
             | none => none
           | _ => none)
        | none => none
      else none
end

/-- Model of `json.loads`: parse one JSON value and require that only
whitespace remains.  The fuel bounds the nesting depth; it is generous
enough for every serialized value (see the round-trip theorem). -/
def jsonLoads (cs : List Char) : Option JVal :=
  match parseVal (2 * cs.length + 2) cs with
  | some (v, rest) => if (skipWs rest).isEmpty then some v else none
  | none => none

/-- Characters whose code is in the ASCII digit range are unequal to a
character with a different code. -/
theorem char_ne_of_toNat {c d : Char} (h : c.toNat ≠ d.toNat) : c ≠ d :=
  fun he => h (by rw [he])

theorem digit_toNat (d : Nat) (h : d < 10) : (digitChar d).toNat = 48 + d := by
  interval_cases d <;> decide

theorem digit_isDigit (d : Nat) (h : d < 10) : isDigitCh (digitChar d) = true := by
  interval_cases d <;> decide

/-- An ASCII digit is not whitespace, none of the literal-start characters,
and none of the JSON punctuation characters. -/
theorem digit_char_props (c : Char) (h : isDigitCh c = true) :
    isWsCh c = false ∧ c ≠ 'n' ∧ c ≠ 't' ∧ c ≠ 'f' ∧ c ≠ '"' ∧ c ≠ '[' ∧
      c ≠ lbrace ∧ c ≠ '-' ∧ c ≠ ']' ∧ c ≠ rbrace ∧ c ≠ ',' ∧ c ≠ ':' := by
  simp only [isDigitCh, Bool.and_eq_true, decide_eq_true_eq] at h
  obtain ⟨h1, h2⟩ := h
  have hsp : c ≠ ' ' := char_ne_of_toNat (by show c.toNat ≠ 32; omega)
  have hnl : c ≠ '\n' := char_ne_of_toNat (by show c.toNat ≠ 10; omega)
  have htb : c ≠ '\t' := char_ne_of_toNat (by show c.toNat ≠ 9; omega)
  have hcr : c ≠ '\r' := char_ne_of_toNat (by show c.toNat ≠ 13; omega)
  refine ⟨by simp [isWsCh, hsp, hnl, htb, hcr], ?_, ?_, ?_, ?_, ?_, ?_, ?_, ?_, ?_, ?_, ?_⟩
  · exact char_ne_of_toNat (by show c.toNat ≠ 110; omega)
  · exact char_ne_of_toNat (by show c.toNat ≠ 116; omega)
  · exact char_ne_of_toNat (by show c.toNat ≠ 102; omega)
  · exact char_ne_of_toNat (by show c.toNat ≠ 34; omega)
  · exact char_ne_of_toNat (by show c.toNat ≠ 91; omega)
  · exact char_ne_of_toNat (by show c.toNat ≠ 123; omega)
  · exact char_ne_of_toNat (by show c.toNat ≠ 45; omega)
  · exact char_ne_of_toNat (by show c.toNat ≠ 93; omega)
  · exact char_ne_of_toNat (by show c.toNat ≠ 125; omega)
  · exact char_ne_of_toNat (by show c.toNat ≠ 44; omega)
  · exact char_ne_of_toNat (by show c.toNat ≠ 58; omega)

theorem skipWs_cons_not {c : Char} (t : List Char) (h : isWsCh c = false) :
    skipWs (c :: t) = c :: t := by
  simp [skipWs, List.dropWhile_cons, h]

/-- Unfolding lemma for `parseStr` on a nonempty input. -/
theorem parseStr_cons (c : Char) (rest : List Char) :
    parseStr (c :: rest) =
      (if c = '"' then some ([], rest)
       else if c = '\\' then
         match rest with
         | [] => none
         | e :: rest2 =>
           match unescapeChar e, parseStr rest2 with
           | some u, some (s, r) => some (u :: s, r)
           | _, _ => none
       else
         match parseStr rest with
         | some (s, r) => some (c :: s, r)
         | none => none) := by
  rw [parseStr.eq_def]

/-- Parsing the escaped form of a string body recovers it exactly. -/
theorem parseStr_escape (s rest : List Char) :
    parseStr (escapeStr s ++ '"' :: rest) = some (s, rest) := by
  induction s with
  | nil => simp [escapeStr, parseStr_cons]
  | cons c cs ih =>
    simp only [escapeStr, List.append_assoc]
    by_cases h1 : c = '"'
    · subst h1; simp [escapeChar, parseStr_cons, unescapeChar, ih]
    · by_cases h2 : c = '\\'
      · subst h2; simp [escapeChar, parseStr_cons, unescapeChar, ih]
      · by_cases h3 : c = '\n'
        · subst h3; simp [escapeChar, parseStr_cons, unescapeChar, ih]
        · by_cases h4 : c = '\t'
          · subst h4; simp [escapeChar, parseStr_cons, unescapeChar, ih]
          · by_cases h5 : c = '\r'
            · subst h5; simp [escapeChar, parseStr_cons, unescapeChar, ih]
            · simp [escapeChar, h1, h2, h3, h4, h5, parseStr_cons, ih]

theorem foldl_dumpNatAux (fuel : Nat) : ∀ (n : Nat) (acc : List Char), n < fuel →
    List.foldl (fun a c => a * 10 + (c.toNat - 48)) 0 (dumpNatAux fuel n acc) =
      List.foldl (fun a c => a * 10 + (c.toNat - 48)) n acc := by
  induction fuel with
  | zero => intro n acc h; omega
  | succ f ih =>
    intro n acc h
    simp only [dumpNatAux]
    by_cases h10 : n < 10
    · rw [if_pos h10]
      simp only [List.foldl_cons]
      rw [digit_toNat n h10]
      congr 1
      omega
    · rw [if_neg h10]
      have hdiv : n / 10 < n := Nat.div_lt_self (by omega) (by norm_num)
      rw [ih (n / 10) _ (by omega)]
      simp only [List.foldl_cons]
      rw [digit_toNat (n % 10) (Nat.mod_lt _ (by norm_num))]
      congr 1
      have := Nat.div_add_mod n 10
      omega

theorem digitsVal_dumpNat (n : Nat) : digitsVal (dumpNat n) = n := by
  unfold digitsVal dumpNat
  rw [foldl_dumpNatAux (n + 1) n [] (by omega)]
  rfl

theorem dumpNatAux_digits (fuel : Nat) : ∀ (n : Nat) (acc : List Char),
    (∀ c ∈ acc, isDigitCh c = true) →
    ∀ c ∈ dumpNatAux fuel n acc, isDigitCh c = true := by
  induction fuel with
  | zero => intro n acc hacc; simpa [dumpNatAux] using hacc
  | succ f ih =>
    intro n acc hacc c hc
    simp only [dumpNatAux] at hc
    by_cases h10 : n < 10
    · rw [if_pos h10] at hc
      rcases List.mem_cons.mp hc with h | h
      · subst h; exact digit_isDigit n h10
      · exact hacc c h
    · rw [if_neg h10] at hc
      refine ih (n / 10) _ ?_ c hc
      intro d hd
      rcases List.mem_cons.mp hd with h | h
      · subst h; exact digit_isDigit (n % 10) (Nat.mod_lt _ (by norm_num))
      · exact hacc d h

theorem dumpNat_digits (n : Nat) : ∀ c ∈ dumpNat n, isDigitCh c = true :=
  dumpNatAux_digits (n + 1) n [] (by simp)

theorem dumpNatAux_head (fuel : Nat) : ∀ (n : Nat) (acc : List Char), n < fuel →
    ∃ d t, d < 10 ∧ dumpNatAux fuel n acc = digitChar d :: t := by
  induction fuel with
  | zero => intro n acc h; omega
  | succ f ih =>
    intro n acc h
    simp only [dumpNatAux]
    by_cases h10 : n < 10
    · rw [if_pos h10]; exact ⟨n, acc, h10, rfl⟩
    · rw [if_neg h10]
      have hdiv : n / 10 < n := Nat.div_lt_self (by omega) (by norm_num)
      exact ih (n / 10) _ (by omega)

theorem dumpNat_head (n : Nat) : ∃ d t, d < 10 ∧ dumpNat n = digitChar d :: t :=
  dumpNatAux_head (n + 1) n [] (by omega)

/-- A property of the head of the continuation: parsing a printed number is
only unambiguous when the following text does not begin with a digit. -/
def noDigitHead : List Char → Prop
  | [] => True
  | c :: _ => isDigitCh c = false

theorem takeWhile_all_append (p : Char → Bool) :
    ∀ (ds rest : List Char), (∀ c ∈ ds, p c = true) →
      List.takeWhile p (ds ++ rest) = ds ++ List.takeWhile p rest := by
  intro ds
  induction ds with
  | nil => simp
  | cons d ds ih =>
    intro rest h
    have hd : p d = true := h d (by simp)
    simp [List.takeWhile, hd]
    exact ih rest (fun c hc => h c (by simp [hc]))

theorem dropWhile_all_append (p : Char → Bool) :
    ∀ (ds rest : List Char), (∀ c ∈ ds, p c = true) →
      List.dropWhile p (ds ++ rest) = List.dropWhile p rest := by
  intro ds
  induction ds with
  | nil => simp
  | cons d ds ih =>
    intro rest h
    have hd : p d = true := h d (by simp)
    simp [List.dropWhile, hd]
    exact ih rest (fun c hc => h c (by simp [hc]))

theorem takeWhile_head_none (rest : List Char) (h : noDigitHead rest) :
    List.takeWhile isDigitCh rest = [] := by
  cases rest with
  | nil => rfl
  | cons c t => simp only [noDigitHead] at h; simp [List.takeWhile, h]

theorem dropWhile_head_none (rest : List Char) (h : noDigitHead rest) :
    List.dropWhile isDigitCh rest = rest := by
  cases rest with
  | nil => rfl
  | cons c t => simp only [noDigitHead] at h; simp [List.dropWhile, h]

/-- Parsing the decimal print of `n` recovers `n` and the continuation. -/
theorem parseNatPart_dump (n : Nat) (rest : List Char) (h : noDigitHead rest) :
    parseNatPart (dumpNat n ++ rest) = some (n, rest) := by
  have hne : ¬ (dumpNat n = []) := by
    obtain ⟨d, t, _, he⟩ := dumpNat_head n
    simp [he]
  simp only [parseNatPart,
    takeWhile_all_append isDigitCh (dumpNat n) rest (dumpNat_digits n),
    dropWhile_all_append isDigitCh (dumpNat n) rest (dumpNat_digits n),
    takeWhile_head_none rest h, dropWhile_head_none rest h, List.append_nil]
  simp [List.isEmpty_iff, hne, digitsVal_dumpNat]

/-- First characters with which the serialization of a JSON value can start. -/
def goodHead (c : Char) : Bool :=
  c = 'n' || c = 't' || c = 'f' || c = '"' || c = '[' || c = lbrace || c = '-' || isDigitCh c

theorem dumpVal_head (v : JVal) : ∃ c t, dumpVal v = c :: t ∧ goodHead c = true := by
  cases v with
  | null => exact ⟨'n', _, rfl, by decide⟩
  | bool b =>
    cases b with
    | false => exact ⟨'f', _, rfl, by decide⟩
    | true => exact ⟨'t', _, rfl, by decide⟩
  | num n =>
    show ∃ c t, dumpInt n = c :: t ∧ goodHead c = true
    by_cases hn : n < 0
    · exact ⟨'-', dumpNat n.natAbs, by simp [dumpInt, hn], by decide⟩
    · obtain ⟨d, t, hd, he⟩ := dumpNat_head n.natAbs
      refine ⟨digitChar d, t, by simp [dumpInt, hn, he], ?_⟩
      simp [goodHead, digit_isDigit d hd]
  | str s => exact ⟨'"', _, rfl, by decide⟩
  | arr a =>
    cases a with
    | nil => exact ⟨'[', _, rfl, by decide⟩
    | cons x xs => exact ⟨'[', _, rfl, by decide⟩
  | obj o =>
    cases o with
    | nil => exact ⟨lbrace, _, rfl, by decide⟩
    | cons k v kvs => exact ⟨lbrace, _, rfl, by decide⟩

theorem goodHead_props (c : Char) (h : goodHead c = true) :
    isWsCh c = false ∧ c ≠ ']' ∧ c ≠ rbrace := by
  simp only [goodHead, Bool.or_eq_true, decide_eq_true_eq] at h
  rcases h with ((((((h | h) | h) | h) | h) | h) | h) | h
  all_goals first
    | (subst h; exact ⟨by decide, by decide, by decide⟩)
    | (obtain ⟨hw, _, _, _, _, _, _, _, hr1, hr2, _, _⟩ := digit_char_props c h
       exact ⟨hw, hr1, hr2⟩)

theorem skipWs_ws {c : Char} (t : List Char) (h : isWsCh c = true) :
    skipWs (c :: t) = skipWs t := by
  simp [skipWs, List.dropWhile, h]

/-- Unfolding lemma for `parseVal` with positive fuel. -/
theorem parseVal_succ (fuel : Nat) (cs : List Char) :
    parseVal (fuel + 1) cs =
      (match skipWs cs with
       | [] => none
       | c :: rest =>
         if c = 'n' then
           match rest with
           | 'u' :: 'l' :: 'l' :: r => some (.null, r)
           | _ => none
         else if c = 't' then
           match rest with
           | 'r' :: 'u' :: 'e' :: r => some (.bool true, r)
           | _ => none
         else if c = 'f' then
           match rest with
           | 'a' :: 'l' :: 's' :: 'e' :: r => some (.bool false, r)
           | _ => none
         else if c = '"' then
           match parseStr rest with
           | some (s, r) => some (.str (String.mk s), r)
           | none => none
         else if c = '[' then
           match skipWs rest with
           | [] => none
           | c2 :: r2 =>
             if c2 = ']' then some (.arr .nil, r2)
             else
               match parseElems fuel (c2 :: r2) with
               | some (xs, r) => some (.arr xs, r)
               | none => none
         else if c = lbrace then
           match skipWs rest with
           | [] => none
           | c2 :: r2 =>
             if c2 = rbrace then some (.obj .nil, r2)
             else
               match parseMembers fuel (c2 :: r2) with
               | some (kvs, r) => some (.obj kvs, r)
               | none => none
         else if c = '-' then
           match parseNatPart rest with
           | some (m, r) => some (.num (-(m : Int)), r)
           | none => none
         else if isDigitCh c then
           match parseNatPart (c :: rest) with
           | some (m, r) => some (.num (m : Int), r)
           | none => none
         else none) := by
  rw [parseVal.eq_def]

/-- Unfolding lemma for `parseElems` with positive fuel. -/
theorem parseElems_succ (fuel : Nat) (cs : List Char) :
    parseElems (fuel + 1) cs =
      (match parseVal fuel cs with
       | none => none
       | some (v, r) =>
         match skipWs r with
         | [] => none
         | c :: r2 =>
           if c = ',' then
             match parseElems fuel r2 with
             | some (vs, r3) => some (.cons v vs, r3)
             | none => none
           else if c = ']' then some (.cons v .nil, r2)
           else none) := by
  rw [parseElems.eq_def]

/-- Unfolding lemma for `parseMembers` with positive fuel. -/
theorem parseMembers_succ (fuel : Nat) (cs : List Char) :
    parseMembers (fuel + 1) cs =
      (match skipWs cs with
       | [] => none
       | c :: rest =>
         if c = '"' then
           match parseStr rest with
           | some (k, r) =>
             (match skipWs r with
              | ':' :: r2 =>
                match parseVal fuel r2 with
                | some (v, r3) =>
                  (match skipWs r3 with
                   | [] => none
                   | c4 :: r4 =>
                     if c4 = ',' then
                       match parseMembers fuel r4 with
                       | some (kvs, r5) => some (.cons (String.mk k) v kvs, r5)
                       | none => none
                     else if c4 = rbrace then some (.cons (String.mk k) v .nil, r4)
                     else none)
                | none => none
              | _ => none)
           | none => none
         else none) := by
  rw [parseMembers.eq_def]

theorem parseVal_zero (cs : List Char) : parseVal 0 cs = none := by
  rw [parseVal.eq_def]

theorem parseElems_zero (cs : List Char) : parseElems 0 cs = none := by
  rw [parseElems.eq_def]

theorem parseMembers_zero (cs : List Char) : parseMembers 0 cs = none := by
  rw [parseMembers.eq_def]

/-- A leading blank is ignored by the value parser. -/
theorem parseVal_blank (f : Nat) (t : List Char) :
    parseVal f (' ' :: t) = parseVal f t := by
  cases f with
  | zero => rw [parseVal_zero, parseVal_zero]
  | succ g => rw [parseVal_succ, parseVal_succ, skipWs_ws t (by decide)]

/-- A leading blank is ignored by the array-elements parser. -/
theorem parseElems_blank (f : Nat) (t : List Char) :
    parseElems f (' ' :: t) = parseElems f t := by
  cases f with
  | zero => rw [parseElems_zero, parseElems_zero]
  | succ g => rw [parseElems_succ, parseElems_succ, parseVal_blank]

/-- A leading blank is ignored by the object-members parser. -/
theorem parseMembers_blank (f : Nat) (t : List Char) :
    parseMembers f (' ' :: t) = parseMembers f t := by
  cases f with
  | zero => rw [parseMembers_zero, parseMembers_zero]
  | succ g => rw [parseMembers_succ, parseMembers_succ, skipWs_ws t (by decide)]

mutual
/-- Fuel needed by `parseVal` to parse the serialization of a value. -/
def needV (v : JVal) : Nat :=
  match v with
  | .null => 1
  | .bool _ => 1
  | .num _ => 1
  | .str _ => 1
  | .arr a => 1 + needA a
  | .obj o => 1 + needO o
termination_by structural v

/-- Fuel needed by `parseElems` for the elements of an array. -/
def needA (a : JArr) : Nat :=
  match a with
  | .nil => 1
  | .cons x xs => 1 + needV x + needA xs
termination_by structural a

/-- Fuel needed by `parseMembers` for the members of an object. -/
def needO (o : JObj) : Nat :=
  match o with
  | .nil => 1
  | .cons _ v kvs => 1 + needV v + needO kvs
termination_by structural o
end

theorem needV_pos (v : JVal) : 1 ≤ needV v := by
  cases v <;> simp [needV]

theorem needA_pos (a : JArr) : 1 ≤ needA a := by
  cases a <;> simp [needA]
  omega

theorem needO_pos (o : JObj) : 1 ≤ needO o := by
  cases o <;> simp [needO]
  omega

theorem dumpVal_ne_nil (v : JVal) : (dumpVal v).length ≥ 1 := by
  obtain ⟨c, t, he, _⟩ := dumpVal_head v
  simp [he]

mutual
theorem needV_le : ∀ v : JVal, needV v ≤ 2 * (dumpVal v).length
  | .null => by simp [needV, dumpVal]
  | .bool b => by cases b <;> simp [needV, dumpVal]
  | .num n => by
      have := dumpVal_ne_nil (.num n)
      simp only [needV]
      omega
  | .str s => by
      have := dumpVal_ne_nil (.str s)
      simp only [needV]
      omega
  | .arr a => by
      cases a with
      | nil => simp [needV, needA, dumpVal]
      | cons x xs =>
        have h1 := needV_le x
        have h2 := needA_le xs
        simp only [needV, needA, dumpVal, List.length_cons, List.length_append,
          List.length_cons, List.length_nil]
        omega
  | .obj o => by
      cases o with
      | nil => simp [needV, needO, dumpVal]
      | cons k v kvs =>
        have h1 := needV_le v
        have h2 := needO_le kvs
        simp only [needV, needO, dumpVal, List.length_cons, List.length_append,
          List.length_nil]
        omega

theorem needA_le : ∀ a : JArr, needA a ≤ 2 * (dumpElems a).length + 1
  | .nil => by simp [needA, dumpElems]
  | .cons x xs => by
      have h1 := needV_le x
      have h2 := needA_le xs
      simp only [needA, dumpElems, List.length_cons, List.length_append]
      omega

theorem needO_le : ∀ o : JObj, needO o ≤ 2 * (dumpMembers o).length + 1
  | .nil => by simp [needO, dumpMembers]
  | .cons k v kvs => by
      have h1 := needV_le v
      have h2 := needO_le kvs
      simp only [needO, dumpMembers, List.length_cons, List.length_append]
      omega
end

theorem parseVal_n (fuel : Nat) (L : List Char) :
    parseVal (fuel + 1) ('n' :: L) =
      (match L with
       | 'u' :: 'l' :: 'l' :: r => some (.null, r)
       | _ => none) := by
  rw [parseVal_succ, skipWs_cons_not _ (by decide)]
  simp

theorem parseVal_t (fuel : Nat) (L : List Char) :
    parseVal (fuel + 1) ('t' :: L) =
      (match L with
       | 'r' :: 'u' :: 'e' :: r => some (.bool true, r)
       | _ => none) := by
  rw [parseVal_succ, skipWs_cons_not _ (by decide)]
  simp

theorem parseVal_f (fuel : Nat) (L : List Char) :
    parseVal (fuel + 1) ('f' :: L) =
      (match L with
       | 'a' :: 'l' :: 's' :: 'e' :: r => some (.bool false, r)
       | _ => none) := by
  rw [parseVal_succ, skipWs_cons_not _ (by decide)]
  simp

theorem parseVal_quote (fuel : Nat) (L : List Char) :
    parseVal (fuel + 1) ('"' :: L) =
      (match parseStr L with
       | some (s, r) => some (.str (String.mk s), r)
       | none => none) := by
  rw [parseVal_succ, skipWs_cons_not _ (by decide)]
  simp

theorem parseVal_lbracket (fuel : Nat) (L : List Char) :
    parseVal (fuel + 1) ('[' :: L) =
      (match skipWs L with
       | [] => none
       | c2 :: r2 =>
         if c2 = ']' then some (.arr .nil, r2)
         else
           match parseElems fuel (c2 :: r2) with
           | some (xs, r) => some (.arr xs, r)
           | none => none) := by
  rw [parseVal_succ, skipWs_cons_not _ (by decide)]
  simp

theorem parseVal_lbrace (fuel : Nat) (L : List Char) :
    parseVal (fuel + 1) (lbrace :: L) =
      (match skipWs L with
       | [] => none
       | c2 :: r2 =>
         if c2 = rbrace then some (.obj .nil, r2)
         else
           match parseMembers fuel (c2 :: r2) with
           | some (kvs, r) => some (.obj kvs, r)
           | none => none) := by
  rw [parseVal_succ, skipWs_cons_not _ (by decide)]
  simp [lbrace]

theorem parseVal_minus (fuel : Nat) (L : List Char) :
    parseVal (fuel + 1) ('-' :: L) =
      (match parseNatPart L with
       | some (m, r) => some (.num (-(m : Int)), r)
       | none => none) := by
  rw [parseVal_succ, skipWs_cons_not _ (by decide)]
  simp [lbrace]

theorem parseVal_digit (fuel : Nat) (c : Char) (L : List Char) (h : isDigitCh c = true) :
    parseVal (fuel + 1) (c :: L) =
      (match parseNatPart (c :: L) with
       | some (m, r) => some (.num (m : Int), r)
       | none => none) := by
  obtain ⟨hw, h1, h2, h3, h4, h5, h6, h7, _, _, _, _⟩ := digit_char_props c h
  rw [parseVal_succ, skipWs_cons_not _ hw]
  simp only [if_neg h1, if_neg h2, if_neg h3, if_neg h4, if_neg h5, if_neg h6, if_neg h7,
    if_pos h]

theorem string_mk_data (s : String) : String.mk s.data = s := rfl

theorem ndh_elems (xs : JArr) (rest : List Char) :
    noDigitHead (dumpElems xs ++ ']' :: rest) := by
  cases xs <;> simp [dumpElems, noDigitHead] <;> decide

theorem ndh_members (kvs : JObj) (rest : List Char) :
    noDigitHead (dumpMembers kvs ++ rbrace :: rest) := by
  cases kvs <;> simp [dumpMembers, noDigitHead] <;> decide

theorem skipWs_dump (v : JVal) (X : List Char) :
    skipWs (dumpVal v ++ X) = dumpVal v ++ X := by
  obtain ⟨c, t, he, hg⟩ := dumpVal_head v
  rw [he]
  simp only [List.cons_append]
  exact skipWs_cons_not _ (goodHead_props c hg).1

theorem match_arr_tail (fuel : Nat) (v : JVal) (X : List Char) :
    (match skipWs (dumpVal v ++ X) with
     | [] => none
     | c2 :: r2 =>
       if c2 = ']' then some (JVal.arr .nil, r2)
       else
         match parseElems fuel (c2 :: r2) with
         | some (xs, r) => some (JVal.arr xs, r)
         | none => none) =
      (match parseElems fuel (dumpVal v ++ X) with
       | some (xs, r) => some (JVal.arr xs, r)
       | none => none) := by
  obtain ⟨c, t, he, hg⟩ := dumpVal_head v
  obtain ⟨hw, hb, _⟩ := goodHead_props c hg
  rw [skipWs_dump, he]
  simp only [List.cons_append]
  simp [hb]

theorem match_obj_tail (fuel : Nat) (k : String) (v : JVal) (X : List Char) :
    (match skipWs (dumpKV k v ++ X) with
     | [] => none
     | c2 :: r2 =>
       if c2 = rbrace then some (JVal.obj .nil, r2)
       else
         match parseMembers fuel (c2 :: r2) with
         | some (kvs, r) => some (JVal.obj kvs, r)
         | none => none) =
      (match parseMembers fuel (dumpKV k v ++ X) with
       | some (kvs, r) => some (JVal.obj kvs, r)
       | none => none) := by
  simp only [dumpKV, List.cons_append, List.append_assoc]
  rw [skipWs_cons_not _ (by decide)]
  simp [show ('"' : Char) ≠ rbrace from by decide]

theorem dump_obj_cons_shape (k : String) (v : JVal) (kvs : JObj) :
    dumpVal (.obj (.cons k v kvs)) = lbrace :: (dumpKV k v ++ dumpMembers kvs ++ [rbrace]) := by
  simp [dumpVal, dumpKV]

theorem dump_members_cons_shape (k : String) (v : JVal) (kvs : JObj) :
    dumpMembers (.cons k v kvs) = ',' :: ' ' :: (dumpKV k v ++ dumpMembers kvs) := by
  simp [dumpMembers, dumpKV]

/-- Step lemma for `parseElems` once the leading value has been parsed. -/
theorem parseElems_succ_ok (fuel : Nat) (cs L : List Char) (v : JVal)
    (h : parseVal fuel cs = some (v, L)) :
    parseElems (fuel + 1) cs =
      (match skipWs L with
       | [] => none
       | c :: r2 =>
         if c = ',' then
           match parseElems fuel r2 with
           | some (vs, r3) => some (JArr.cons v vs, r3)
           | none => none
         else if c = ']' then some (JArr.cons v .nil, r2)
         else none) := by
  rw [parseElems_succ, h]

/-- Step lemma for `parseMembers` on a serialized key followed by a colon. -/
theorem parseMembers_key (fuel : Nat) (kd : List Char) (T : List Char) :
    parseMembers (fuel + 1) ('"' :: (escapeStr kd ++ '"' :: ':' :: ' ' :: T)) =
      (match parseVal fuel (' ' :: T) with
       | some (v, r3) =>
         (match skipWs r3 with
          | [] => none
          | c4 :: r4 =>
            if c4 = ',' then
              match parseMembers fuel r4 with
              | some (kvs, r5) => some (.cons (String.mk kd) v kvs, r5)
              | none => none
            else if c4 = rbrace then some (.cons (String.mk kd) v .nil, r4)
            else none)
       | none => none) := by
  rw [parseMembers_succ, skipWs_cons_not _ (by decide)]
  simp [parseStr_escape, skipWs, List.dropWhile, isWsCh]

/-- Round-trip workhorse: with enough fuel, the parser inverts the printer,
whatever the continuation text is (as long as it does not begin with a digit,
which could merge with a printed number). -/
theorem parse_dump_aux : ∀ fuel : Nat,
    (∀ (v : JVal) (rest : List Char), needV v ≤ fuel → noDigitHead rest →
      parseVal fuel (dumpVal v ++ rest) = some (v, rest)) ∧
    (∀ (x : JVal) (xs : JArr) (rest : List Char), needA (.cons x xs) ≤ fuel →
      parseElems fuel (dumpVal x ++ (dumpElems xs ++ ']' :: rest)) = some (.cons x xs, rest)) ∧
    (∀ (k : String) (v : JVal) (kvs : JObj) (rest : List Char), needO (.cons k v kvs) ≤ fuel →
      parseMembers fuel (dumpKV k v ++ (dumpMembers kvs ++ rbrace :: rest)) =
        some (.cons k v kvs, rest)) := by
  intro fuel
  induction fuel with
  | zero =>
    refine ⟨?_, ?_, ?_⟩
    · intro v rest h _
      exact absurd h (by have := needV_pos v; omega)
    · intro x xs rest h
      refine absurd h ?_
      have h1 := needV_pos x
      have h2 := needA_pos xs
      simp only [needA]
      omega
    · intro k v kvs rest h
      refine absurd h ?_
      have h1 := needV_pos v
      have h2 := needO_pos kvs
      simp only [needO]
      omega
  | succ fuel ih =>
    obtain ⟨ihV, ihA, ihO⟩ := ih
    refine ⟨?_, ?_, ?_⟩
    · intro v rest hneed hnd
      cases v with
      | null => simp [dumpVal, parseVal_n]
      | bool b => cases b <;> simp [dumpVal, parseVal_t, parseVal_f]
      | num n =>
        by_cases hn : n < 0
        · rw [show dumpVal (.num n) = '-' :: dumpNat n.natAbs from by simp [dumpVal, dumpInt, hn]]
          simp only [List.cons_append]
          rw [parseVal_minus, parseNatPart_dump n.natAbs rest hnd]
          simp [abs_of_neg hn]
        · obtain ⟨d, t, hd, he⟩ := dumpNat_head n.natAbs
          rw [show dumpVal (.num n) = dumpNat n.natAbs from by simp [dumpVal, dumpInt, hn]]
          rw [he]
          simp only [List.cons_append]
          rw [parseVal_digit fuel (digitChar d) _ (digit_isDigit d hd)]
          rw [show digitChar d :: (t ++ rest) = dumpNat n.natAbs ++ rest from by rw [he]; simp]
          rw [parseNatPart_dump n.natAbs rest hnd]
          simp [abs_of_nonneg (show (0 : Int) ≤ n by omega)]
      | str s =>
        simp only [dumpVal, List.cons_append, List.append_assoc, List.singleton_append]
        rw [parseVal_quote, parseStr_escape]
        simp [string_mk_data]
      | arr a =>
        cases a with
        | nil => simp [dumpVal, parseVal_lbracket, skipWs, List.dropWhile, isWsCh]
        | cons x xs =>
          have hb : needA (.cons x xs) ≤ fuel := by
            simp only [needV] at hneed; omega
          simp only [dumpVal, List.cons_append, List.append_assoc, List.singleton_append,
            List.nil_append]
          rw [parseVal_lbracket, match_arr_tail, ihA x xs rest hb]
      | obj o =>
        cases o with
        | nil =>
          have hw : isWsCh rbrace = false := by decide
          simp [dumpVal, parseVal_lbrace, skipWs_cons_not _ hw]
        | cons k v kvs =>
          have hb : needO (.cons k v kvs) ≤ fuel := by
            simp only [needV] at hneed; omega
          rw [dump_obj_cons_shape]
          simp only [List.cons_append, List.append_assoc, List.singleton_append,
            List.nil_append]
          rw [parseVal_lbrace, match_obj_tail, ihO k v kvs rest hb]
    · intro x xs rest hb
      have hv : needV x ≤ fuel := by
        have := needA_pos xs; simp only [needA] at hb; omega
      rw [parseElems_succ_ok fuel _ _ x (ihV x _ hv (ndh_elems xs rest))]
      cases xs with
      | nil =>
        simp [dumpElems, skipWs, List.dropWhile, isWsCh]
      | cons y ys =>
        have hb2 : needA (.cons y ys) ≤ fuel := by
          have := needV_pos x; simp only [needA] at hb ⊢; omega
        simp only [dumpElems, List.cons_append, List.append_assoc]
        rw [skipWs_cons_not _ (by decide)]
        simp [parseElems_blank, ihA y ys rest hb2]
    · intro k v kvs rest hb
      have hv : needV v ≤ fuel := by
        have := needO_pos kvs; simp only [needO] at hb; omega
      rw [show dumpKV k v ++ (dumpMembers kvs ++ rbrace :: rest)
            = '"' :: (escapeStr k.data ++ '"' :: ':' :: ' ' :: (dumpVal v ++ (dumpMembers kvs ++ rbrace :: rest)))
          from by simp [dumpKV]]
      rw [parseMembers_key, parseVal_blank, ihV v _ hv (ndh_members kvs rest)]
      cases kvs with
      | nil =>
        have hw : isWsCh rbrace = false := by decide
        have h1 : rbrace ≠ ',' := by decide
        simp [dumpMembers, skipWs_cons_not _ hw, h1, string_mk_data]
      | cons k2 v2 kvs2 =>
        have hb2 : needO (.cons k2 v2 kvs2) ≤ fuel := by
          have := needV_pos v; simp only [needO] at hb ⊢; omega
        rw [dump_members_cons_shape]
        simp only [List.cons_append, List.append_assoc]
        rw [skipWs_cons_not _ (by decide)]
        have hkey : '"' :: (escapeStr k2.data ++ '"' :: ':' :: ' ' :: (dumpVal v2 ++ (dumpMembers kvs2 ++ rbrace :: rest)))
            = dumpKV k2 v2 ++ (dumpMembers kvs2 ++ rbrace :: rest) := by simp [dumpKV]
        simp [parseMembers_blank, hkey, ihO k2 v2 kvs2 rest hb2, string_mk_data]

/-- The model of `json.loads` inverts the model of `json.dumps`. -/
theorem jsonLoads_dump (v : JVal) : jsonLoads (dumpVal v) = some v := by
  have hlen : needV v ≤ 2 * (dumpVal v).length + 2 := by
    have := needV_le v; omega
  have h2 : parseVal (2 * (dumpVal v).length + 2) (dumpVal v) = some (v, []) := by
    have h := (parse_dump_aux (2 * (dumpVal v).length + 2)).1 v [] hlen (by trivial)
    simpa using h
  simp [jsonLoads, h2, skipWs]

/-- Builds a JSON object from a Lean association list (literal helper). -/
def jobj : List (String × JVal) → JObj
  | [] => .nil
  | (k, v) :: kvs => .cons k v (jobj kvs)

/-- Key lookup in a JSON object (Python dict lookup; keys are unique in
objects produced by the remote API). -/
def lookupKV : JObj → String → Option JVal
  | .nil, _ => none
  | .cons k v kvs, key => if k = key then some v else lookupKV kvs key

/-- Model of Python `o.get(key, dflt)`: on a dict it returns the stored value
(even when that value is `null`) or the default when the key is absent; on
any non-dict value (including `null`) it raises `AttributeError`, modelled
as `.error ()`. -/
def pyGet (o : JVal) (key : String) (dflt : JVal) : Except Unit JVal :=
  match o with
  | .obj kvs => .ok ((lookupKV kvs key).getD dflt)
  | _ => .error ()

/-- Model of Python truthiness on JSON values. -/
def pyTruthy : JVal → Bool
  | .null => false
  | .bool b => b
  | .num n => decide (n ≠ 0)
  | .str s => decide (s ≠ "")
  | .arr .nil => false
  | .arr (.cons _ _) => true
  | .obj .nil => false
  | .obj (.cons _ _ _) => true

/-- Model of Python `v[0]`: first element of a list, first character of a
string; anything else (or an empty sequence) raises. -/
def pyFirst : JVal → Except Unit JVal
  | .arr (.cons x _) => .ok x
  | .str s =>
    match s.data with
    | c :: _ => .ok (.str (String.mk [c]))
    | [] => .error ()
  | _ => .error ()

/-- Model of the Python idiom `o.get(k1, dict()).get(k2)` used throughout the
extractors: the inner default is an empty dict, the outer default `None`. -/
def getPath2 (o : JVal) (k1 k2 : String) : Except Unit JVal := do
  let sub ← pyGet o k1 (.obj .nil)
  pyGet sub k2 .null

/-- The venue dictionary built by `extract_venue_info` in
`backend/events_api.py`. -/
structure VenueInfo where
  id : JVal
  name : JVal
  address : JVal
  city : JVal
  state : JVal
  country : JVal
  postal_code : JVal
  timezone : JVal
  location : JVal
deriving DecidableEq

/-- Embedding of `extract_venue_info` (`backend/events_api.py`): reads the
first element of `event['_embedded']['venues']` if that list is truthy and
returns a flat venue dictionary, `None` otherwise. -/
def extract_venue_info (event : JVal) : Except Unit (Option VenueInfo) := do
  let emb ← pyGet event "_embedded" (.obj .nil)
  let venues ← pyGet emb "venues" (.arr .nil)
  if pyTruthy venues then
    let venue ← pyFirst venues
    let i ← pyGet venue "id" .null
    let n ← pyGet venue "name" .null
    let addr ← getPath2 venue "address" "line1"
    let city ← getPath2 venue "city" "name"
    let st ← getPath2 venue "state" "name"
    let co ← getPath2 venue "country" "name"
    let pc ← pyGet venue "postalCode" .null
    let tz ← pyGet venue "timezone" .null
    let loc ← pyGet venue "location" (.obj .nil)
    pure (some { id := i, name := n, address := addr, city := city, state := st,
                 country := co, postal_code := pc, timezone := tz, location := loc })
  else
    pure none

/-- The classification dictionary built by `extract_classifications` in
`backend/events_api.py`. -/
structure ClassificationInfo where
  segment : JVal
  genre : JVal
  subgenre : JVal
  type : JVal
  subtype : JVal
  family : JVal
deriving DecidableEq

/-- Embedding of `extract_classifications` (`backend/events_api.py`): reads
the first element of `event['classifications']` if that list is truthy;
`family` defaults to `False` rather than `None`. -/
def extract_classifications (event : JVal) : Except Unit (Option ClassificationInfo) := do
  let cls ← pyGet event "classifications" (.arr .nil)
  if pyTruthy cls then
    let c ← pyFirst cls
    let seg ← getPath2 c "segment" "name"
    let gen ← getPath2 c "genre" "name"
    let sub ← getPath2 c "subGenre" "name"
    let ty ← getPath2 c "type" "name"
    let sty ← getPath2 c "subType" "name"
    let fam ← pyGet c "family" (.bool false)
    pure (some { segment := seg, genre := gen, subgenre := sub, type := ty,
                 subtype := sty, family := fam })
  else
    pure none

/-- Path `event['dates']['start'][key]` with defensive empty-dict defaults,
as written in both transforms. -/
def datesStartGet (event : JVal) (key : String) : Except Unit JVal := do
  let ds ← pyGet event "dates" (.obj .nil)
  let st ← pyGet ds "start" (.obj .nil)
  pyGet st key .null

/-- Path `event['dates']['timezone']`. -/
def datesTimezone (event : JVal) : Except Unit JVal := do
  let ds ← pyGet event "dates" (.obj .nil)
  pyGet ds "timezone" .null

/-- Path `event['dates']['status']['code']`. -/
def datesStatusCode (event : JVal) : Except Unit JVal := do
  let ds ← pyGet event "dates" (.obj .nil)
  let st ← pyGet ds "status" (.obj .nil)
  pyGet st "code" .null

/-- The flat storage-mode record built for each event inside
`PostgreSQLDatabaseAPI.load_prg_data` (`backend/database.py`). -/
structure StorageEvent where
  id : JVal
  name : JVal
  url : JVal
  date : JVal
  time : JVal
  datetime : JVal
  timezone : JVal
  status : JVal
  venue_id : JVal
  venue_name : JVal
  venue_address : JVal
  venue_city : JVal
  venue_state : JVal
  venue_country : JVal
  venue_postal_code : JVal
  venue_timezone : JVal
  venue_location : JVal
  classification_segment : JVal
  classification_genre : JVal
  classification_subgenre : JVal
  classification_type : JVal
  classification_subtype : JVal
  classification_family : JVal
  price_ranges : JVal
  images : JVal
  info : JVal
  please_note : JVal
deriving DecidableEq

/-- Embedding of the storage-mode transform of one raw event: the
`transformed_event` dictionary of `load_prg_data` (`backend/database.py`,
lines 296-330). -/
def transform_event_storage (event : JVal) : Except Unit StorageEvent := do
  let vi ← extract_venue_info event
  let ci ← extract_classifications event
  let i ← pyGet event "id" .null
  let n ← pyGet event "name" .null
  let u ← pyGet event "url" .null
  let d ← datesStartGet event "localDate"
  let t ← datesStartGet event "localTime"
  let dt ← datesStartGet event "dateTime"
  let tz ← datesTimezone event
  let st ← datesStatusCode event
  let pr ← pyGet event "priceRanges" (.arr .nil)
  let im ← pyGet event "images" (.arr .nil)
  let inf ← pyGet event "info" .null
  let pn ← pyGet event "pleaseNote" .null
  pure { id := i, name := n, url := u, date := d, time := t, datetime := dt,
         timezone := tz, status := st,
         venue_id := match vi with | some v => v.id | none => .null,
         venue_name := match vi with | some v => v.name | none => .null,
         venue_address := match vi with | some v => v.address | none => .null,
         venue_city := match vi with | some v => v.city | none => .null,
         venue_state := match vi with | some v => v.state | none => .null,
         venue_country := match vi with | some v => v.country | none => .null,
         venue_postal_code := match vi with | some v => v.postal_code | none => .null,
         venue_timezone := match vi with | some v => v.timezone | none => .null,
         venue_location := match vi with | some v => v.location | none => .obj .nil,
         classification_segment := match ci with | some c => c.segment | none => .null,
         classification_genre := match ci with | some c => c.genre | none => .null,
         classification_subgenre := match ci with | some c => c.subgenre | none => .null,
         classification_type := match ci with | some c => c.type | none => .null,
         classification_subtype := match ci with | some c => c.subtype | none => .null,
         classification_family := match ci with | some c => c.family | none => .bool false,
         price_ranges := pr, images := im, info := inf, please_note := pn }

/-- The reduced record built by `transform_event_simple`
(`backend/events_api.py`). -/
structure SimpleEvent where
  id : JVal
  name : JVal
  date : JVal
  time : JVal
  venue_name : JVal
  classification : JVal
  url : JVal
deriving DecidableEq

/-- Embedding of `transform_event_simple` (`backend/events_api.py`): the
reduced transform for basic endpoints. -/
def transform_event_simple (event : JVal) : Except Unit SimpleEvent := do
  let i ← pyGet event "id" .null
  let n ← pyGet event "name" .null
  let d ← datesStartGet event "localDate"
  let t ← datesStartGet event "localTime"
  let vi ← extract_venue_info event
  let ci ← extract_classifications event
  let u ← pyGet event "url" .null
  pure { id := i, name := n, date := d, time := t,
         venue_name := match vi with | some v => v.name | none => .null,
         classification := match ci with | some c => c.segment | none => .null,
         url := u }

/-- Projection of the full storage-mode record onto the fields of the simple
transform (the correspondence claimed by the specification). -/
def projSimple (s : StorageEvent) : SimpleEvent :=
  { id := s.id, name := s.name, date := s.date, time := s.time,
    venue_name := s.venue_name, classification := s.classification_segment,
    url := s.url }

/-- One row of the `events` table.  The JSONB columns `venue_location`,
`price_ranges` and `images` hold the serialized text produced by
`json.dumps`; `created_at` / `updated_at` are abstract clock values
(the database's `CURRENT_TIMESTAMP`). -/
structure DbRow where
  id : JVal
  name : JVal
  url : JVal
  date : JVal
  time : JVal
  datetime : JVal
  timezone : JVal
  status : JVal
  venue_id : JVal
  venue_name : JVal
  venue_address : JVal
  venue_city : JVal
  venue_state : JVal
  venue_country : JVal
  venue_postal_code : JVal
  venue_timezone : JVal
  venue_location : List Char
  classification_segment : JVal
  classification_genre : JVal
  classification_subgenre : JVal
  classification_type : JVal
  classification_subtype : JVal
  classification_family : JVal
  price_ranges : List Char
  images : List Char
  info : JVal
  please_note : JVal
  created_at : Nat
  updated_at : Nat
deriving DecidableEq

/-- The row inserted by the `INSERT` branch of `_upsert_events`
(`backend/database.py`, lines 355-370): every column comes from the
storage-mode record, with `venue_location`, `price_ranges` and `images`
passed through `json.dumps`; the timestamps take the database defaults. -/
def insertRow (now : Nat) (e : StorageEvent) : DbRow :=
  { id := e.id, name := e.name, url := e.url, date := e.date, time := e.time,
    datetime := e.datetime, timezone := e.timezone, status := e.status,
    venue_id := e.venue_id, venue_name := e.venue_name,
    venue_address := e.venue_address, venue_city := e.venue_city,
    venue_state := e.venue_state, venue_country := e.venue_country,
    venue_postal_code := e.venue_postal_code, venue_timezone := e.venue_timezone,
    venue_location := dumpVal e.venue_location,
    classification_segment := e.classification_segment,
    classification_genre := e.classification_genre,
    classification_subgenre := e.classification_subgenre,
    classification_type := e.classification_type,
    classification_subtype := e.classification_subtype,
    classification_family := e.classification_family,
    price_ranges := dumpVal e.price_ranges, images := dumpVal e.images,
    info := e.info, please_note := e.please_note,
    created_at := now, updated_at := now }

/-- The column updates of the `ON CONFLICT (id) DO UPDATE SET` clause of
`_upsert_events` (`backend/database.py`, lines 371-380): exactly
`name, url, date, time, datetime, status, venue_name, venue_city` and
`updated_at`; every other column keeps its stored value. -/
def applyUpdate (now : Nat) (e : StorageEvent) (r : DbRow) : DbRow :=
  { r with name := e.name, url := e.url, date := e.date, time := e.time,
           datetime := e.datetime, status := e.status,
           venue_name := e.venue_name, venue_city := e.venue_city,
           updated_at := now }

/-- One `INSERT ... ON CONFLICT (id) DO UPDATE` statement against the store:
if a row with the record's `id` exists it is updated (per `applyUpdate`),
otherwise a fresh row is appended. -/
def upsertOne (now : Nat) (store : List DbRow) (e : StorageEvent) : List DbRow :=
  if store.any (fun r => decide (r.id = e.id)) then
    store.map (fun r => if r.id = e.id then applyUpdate now e r else r)
  else store ++ [insertRow now e]

/-- The row loop of `_upsert_events`: executes the upsert statement for each
record in order inside one transaction; `fails e = true` models the store
raising on that row's statement, which aborts the loop. -/
def upsertLoop (fails : StorageEvent → Bool) (now : Nat) :
    List DbRow → List StorageEvent → Option (List DbRow)
  | pending, [] => some pending
  | pending, e :: rest =>
    if fails e then none
    else upsertLoop fails now (upsertOne now pending e) rest

/-- Embedding of `PostgreSQLDatabaseAPI._upsert_events`
(`backend/database.py`, lines 349-416): the whole batch runs inside a single
`try`/`except` and a single connection; on success the transaction commits
and the function returns `True`; if any row's statement raises, the
exception aborts the loop, the connection closes without commit (rolling the
transaction back to the original store) and the function returns `False`. -/
def upsertEvents (fails : StorageEvent → Bool) (now : Nat)
    (store : List DbRow) (events : List StorageEvent) : Bool × List DbRow :=
  match upsertLoop fails now store events with
  | some st => (true, st)
  | none => (false, store)

/-- The venue object rebuilt by the read path (`backend/app.py`,
lines 160-172). -/
structure VenueOut where
  id : JVal
  name : JVal
  address : JVal
  city : JVal
  state : JVal
  country : JVal
  postal_code : JVal
  timezone : JVal
  location : JVal
deriving DecidableEq

/-- The classifications object rebuilt by the read path (`backend/app.py`,
lines 174-184). -/
structure ClsOut where
  segment : JVal
  genre : JVal
  subgenre : JVal
  type : JVal
  subtype : JVal
  family : Bool
deriving DecidableEq

/-- The event shape returned to the frontend (`backend/app.py`,
lines 186-202). -/
structure TransformedEvent where
  id : JVal
  name : JVal
  url : JVal
  date : JVal
  time : JVal
  datetime : JVal
  timezone : JVal
  status : JVal
  venue : Option VenueOut
  classifications : Option ClsOut
  price_ranges : JVal
  images : JVal
  info : JVal
  please_note : JVal
deriving DecidableEq

/-- The decoding idiom of the read path:
`json.loads(txt) if txt else default`, with the `json.loads` failure caught
and replaced by the default (`backend/app.py`, lines 143-157). -/
def decodeOr (txt : List Char) (dflt : JVal) : JVal :=
  if txt.isEmpty then dflt
  else
    match jsonLoads txt with
    | some v => v
    | none => dflt

/-- Embedding of the per-row denormalization of `get_events_upcoming`
(`backend/app.py`, lines 142-203): decode the serialized fields
fault-tolerantly, rebuild the venue object only when `venue_name` is truthy
and the classifications object only when `classification_segment` is truthy. -/
def rowTransform (row : DbRow) : TransformedEvent :=
  let price_ranges := decodeOr row.price_ranges (.arr .nil)
  let images := decodeOr row.images (.arr .nil)
  let venue_location := decodeOr row.venue_location (.obj .nil)
  let venue : Option VenueOut :=
    if pyTruthy row.venue_name then
      some { id := row.venue_id, name := row.venue_name,
             address := row.venue_address, city := row.venue_city,
             state := row.venue_state, country := row.venue_country,
             postal_code := row.venue_postal_code, timezone := row.venue_timezone,
             location := venue_location }
    else none
  let classifications : Option ClsOut :=
    if pyTruthy row.classification_segment then
      some { segment := row.classification_segment,
             genre := row.classification_genre,
             subgenre := row.classification_subgenre,
             type := row.classification_type,
             subtype := row.classification_subtype,
             family := pyTruthy row.classification_family }
    else none
  { id := row.id, name := row.name, url := row.url, date := row.date,
    time := row.time, datetime := row.datetime, timezone := row.timezone,
    status := row.status, venue := venue, classifications := classifications,
    price_ranges := price_ranges, images := images, info := row.info,
    please_note := row.please_note }

/-- Pagination metadata of the listing response (`backend/app.py`,
lines 236-243). -/
structure Pagination where
  total_events : Nat
  total_pages : Nat
  current_page : Nat
  events_per_page : Nat
  events_on_page : Nat
deriving DecidableEq

/-- Embedding of the pagination arithmetic of `get_events_upcoming`
(`backend/app.py`, lines 219-222 and 236-243): the page size is clamped to
200 from above, total pages is `(total + perPage - 1) // perPage`, and the
current page index is always 0.  The caller guards against a zero divisor
(Python raises `ZeroDivisionError` there; see the request handler below). -/
def paginationBlock (total size returned : Nat) : Pagination :=
  { total_events := total,
    total_pages := (total + min size 200 - 1) / min size 200,
    current_page := 0,
    events_per_page := min size 200,
    events_on_page := returned }

/-- Lexicographic comparison of character lists; on ISO `YYYY-MM-DD` strings
this agrees with the store's `DATE` ordering. -/
def strLeB : List Char → List Char → Bool
  | [], _ => true
  | _ :: _, [] => false
  | a :: as, b :: bs => if a = b then strLeB as bs else decide (a.toNat < b.toNat)

/-- The only filter that is live in the query text of `get_events_upcoming`
(`backend/app.py`, lines 89-92): `date >= start AND date <= end`.  A row
whose date is NULL (or not a string) is excluded, as SQL comparisons with
NULL are not satisfied.  The city, country, keyword and classification
clauses of the source are commented out and therefore absent here. -/
def activeRowFilter (startD endD : List Char) (r : DbRow) : Bool :=
  match r.date with
  | .str s => strLeB startD s.data && strLeB s.data endD
  | _ => false

/-- Python `str.split(<comma>)`: splits on every comma; the empty string
yields one empty piece. -/
def splitOnComma : List Char → List (List Char)
  | [] => [[]]
  | c :: rest =>
    let r := splitOnComma rest
    if c = ',' then [] :: r
    else
      match r with
      | h :: t => (c :: h) :: t
      | [] => [[c]]

/-- Python `str.strip()` on ASCII whitespace. -/
def pyStrip (s : List Char) : List Char :=
  (((s.dropWhile isWsCh).reverse).dropWhile isWsCh).reverse

/-- The classification-list parsing of `get_events_upcoming`
(`backend/app.py`, line 83): split on commas, strip, drop empty pieces. -/
def classificationListOf (c : List Char) : List (List Char) :=
  ((splitOnComma c).map pyStrip).filter (fun x => !x.isEmpty)

/-- The `filters_applied` section of the response envelope
(`backend/app.py`, lines 244-254). -/
structure FiltersApplied where
  city : List Char
  country : List Char
  classifications : List (List Char)
  keyword : Option (List Char)
  date_from : List Char
  date_to : List Char
deriving DecidableEq

/-- The two possible response envelopes of the events endpoint: the success
JSON body, or the error body with its HTTP status code (500). -/
inductive ApiResp where
  | success (events : List TransformedEvent) (pagination : Pagination)
      (filters : FiltersApplied) : ApiResp
  | error (httpStatus : Nat) : ApiResp
deriving DecidableEq

/-- Embedding of the `/api/events` handler `get_events_upcoming`
(`backend/app.py`, lines 59-264).  The store contents and the computed date
window are parameters (the window is derived from the wall clock in the
source).  The live query applies only the date filter and no LIMIT or ORDER
BY (those clauses are commented out), so every matching row is returned and
counted.  The pagination arithmetic divides by `min size 200`; when `size`
is 0 Python raises `ZeroDivisionError`, the surrounding `except` catches it
and the handler answers with the error envelope and HTTP 500. -/
def get_events_upcoming (store : List DbRow) (startD endD : List Char)
    (city country classification : List Char) (keyword : Option (List Char))
    (size : Nat) : ApiResp :=
  let rows := store.filter (activeRowFilter startD endD)
  let events := rows.map rowTransform
  let total := rows.length
  if min size 200 = 0 then .error 500
  else
    .success events (paginationBlock total size events.length)
      { city := city, country := country,
        classifications := classificationListOf classification,
        keyword := keyword, date_from := startD, date_to := endD }

instance {α : Type} [DecidableEq α] : DecidableEq (Except Unit α)
  | .error a, .error b => isTrue (by cases a; cases b; rfl)
  | .ok a, .ok b =>
    if h : a = b then isTrue (by rw [h])
    else isFalse (fun hc => h (by injection hc))
  | .error _, .ok _ => isFalse (fun h => Except.noConfusion h)
  | .ok _, .error _ => isFalse (fun h => Except.noConfusion h)

@[simp] theorem ok_bind {α β : Type} (a : α) (f : α → Except Unit β) :
    (Except.ok a >>= f) = f a := rfl

@[simp] theorem error_bind {α β : Type} (e : Unit) (f : α → Except Unit β) :
    ((Except.error e : Except Unit α) >>= f) = .error () := rfl

theorem bind_ok_inv {α β : Type} {m : Except Unit α} {f : α → Except Unit β} {b : β}
    (h : (m >>= f) = .ok b) : ∃ a, m = .ok a ∧ f a = .ok b := by
  cases m with
  | error e => simp at h
  | ok a => exact ⟨a, rfl, by simpa using h⟩

/-- Inversion of a successful storage-mode transform: every step of the
chain succeeded and the record collects their results. -/
theorem storage_inv (e : JVal) (s : StorageEvent)
    (h : transform_event_storage e = .ok s) :
    ∃ vio cio i n u d t dt tz st pr im inf pn,
      extract_venue_info e = .ok vio ∧
      extract_classifications e = .ok cio ∧
      pyGet e "id" .null = .ok i ∧
      pyGet e "name" .null = .ok n ∧
      pyGet e "url" .null = .ok u ∧
      datesStartGet e "localDate" = .ok d ∧
      datesStartGet e "localTime" = .ok t ∧
      datesStartGet e "dateTime" = .ok dt ∧
      datesTimezone e = .ok tz ∧
      datesStatusCode e = .ok st ∧
      pyGet e "priceRanges" (.arr .nil) = .ok pr ∧
      pyGet e "images" (.arr .nil) = .ok im ∧
      pyGet e "info" .null = .ok inf ∧
      pyGet e "pleaseNote" .null = .ok pn ∧
      s = { id := i, name := n, url := u, date := d, time := t, datetime := dt,
            timezone := tz, status := st,
            venue_id := match vio with | some v => v.id | none => .null,
            venue_name := match vio with | some v => v.name | none => .null,
            venue_address := match vio with | some v => v.address | none => .null,
            venue_city := match vio with | some v => v.city | none => .null,
            venue_state := match vio with | some v => v.state | none => .null,
            venue_country := match vio with | some v => v.country | none => .null,
            venue_postal_code := match vio with | some v => v.postal_code | none => .null,
            venue_timezone := match vio with | some v => v.timezone | none => .null,
            venue_location := match vio with | some v => v.location | none => .obj .nil,
            classification_segment := match cio with | some c => c.segment | none => .null,
            classification_genre := match cio with | some c => c.genre | none => .null,
            classification_subgenre := match cio with | some c => c.subgenre | none => .null,
            classification_type := match cio with | some c => c.type | none => .null,
            classification_subtype := match cio with | some c => c.subtype | none => .null,
            classification_family := match cio with | some c => c.family | none => .bool false,
            price_ranges := pr, images := im, info := inf, please_note := pn } := by
  unfold transform_event_storage at h
  obtain ⟨vio, hvi, h⟩ := bind_ok_inv h
  obtain ⟨cio, hci, h⟩ := bind_ok_inv h
  obtain ⟨i, hi, h⟩ := bind_ok_inv h
  obtain ⟨n, hn, h⟩ := bind_ok_inv h
  obtain ⟨u, hu, h⟩ := bind_ok_inv h
  obtain ⟨d, hd, h⟩ := bind_ok_inv h
  obtain ⟨t, ht, h⟩ := bind_ok_inv h
  obtain ⟨dt, hdt, h⟩ := bind_ok_inv h
  obtain ⟨tz, htz, h⟩ := bind_ok_inv h
  obtain ⟨st, hst, h⟩ := bind_ok_inv h
  obtain ⟨pr, hpr, h⟩ := bind_ok_inv h
  obtain ⟨im, him, h⟩ := bind_ok_inv h
  obtain ⟨inf, hinf, h⟩ := bind_ok_inv h
  obtain ⟨pn, hpn, h⟩ := bind_ok_inv h
  refine ⟨vio, cio, i, n, u, d, t, dt, tz, st, pr, im, inf, pn,
    hvi, hci, hi, hn, hu, hd, ht, hdt, htz, hst, hpr, him, hinf, hpn, ?_⟩
  exact (Except.ok.inj h).symm

/-- C10: the requested page size is clamped only from above (to 200), never
from below; for a request with `size = 0` the pagination computation divides
by zero, so the whole request returns the error envelope with HTTP 500
instead of an empty or clamped result. -/
theorem C10_size_zero_gives_500 (store : List DbRow)
    (startD endD city country classification : List Char)
    (keyword : Option (List Char)) :
    min 0 200 = 0 ∧
    get_events_upcoming store startD endD city country classification keyword 0 =
      .error 500 := by
  exact ⟨rfl, by simp [get_events_upcoming]⟩

/-- C7: for every total matching row count and every positive page size
(clamped to a maximum of 200), the pagination metadata reports the total
count, a 0-based current page index, the clamped page size, the count of
rows actually returned, and a total-pages value that is exactly the ceiling
of count divided by the clamped page size (the least number of pages
covering the count). -/
theorem C7_pagination (total size returned : Nat) (h : 0 < size) :
    (paginationBlock total size returned).total_events = total ∧
    (paginationBlock total size returned).current_page = 0 ∧
    (paginationBlock total size returned).events_per_page = min size 200 ∧
    (paginationBlock total size returned).events_on_page = returned ∧
    total ≤ (paginationBlock total size returned).total_pages * min size 200 ∧
    (∀ m : Nat, total ≤ m * min size 200 →
      (paginationBlock total size returned).total_pages ≤ m) := by
  have hepp : 0 < min size 200 := by omega
  refine ⟨rfl, rfl, rfl, rfl, ?_, ?_⟩
  · show total ≤ (total + min size 200 - 1) / min size 200 * min size 200
    set epp := min size 200 with hepdef
    cases total with
    | zero => simp
    | succ t =>
      have h1 : t + 1 + epp - 1 = t + epp := by omega
      rw [h1, Nat.add_div_right t hepp]
      have h2 := Nat.div_add_mod t epp
      have h3 := Nat.mod_lt t hepp
      have h4 : (t / epp + 1) * epp = epp * (t / epp) + epp := by ring
      rw [h4]
      omega
  · intro m hm
    show (total + min size 200 - 1) / min size 200 ≤ m
    set epp := min size 200 with hepdef
    cases total with
    | zero =>
      have hz : (0 + epp - 1) / epp = (epp - 1) / epp := by congr 1; omega
      rw [hz, Nat.div_eq_of_lt (by omega)]
      omega
    | succ t =>
      have h1 : t + 1 + epp - 1 = t + epp := by omega
      rw [h1, Nat.add_div_right t hepp]
      have h2 : t / epp < m := (Nat.div_lt_iff_lt_mul hepp).mpr (by omega)
      omega

theorem C7_pagination_witness :
    (0 : Nat) < 50 ∧
    (paginationBlock 205 50 50).total_pages = 5 ∧
    (paginationBlock 205 50 50).current_page = 0 ∧
    205 ≤ (paginationBlock 205 50 50).total_pages * min 50 200 :=
  ⟨by decide, by decide, (C7_pagination 205 50 50 (by decide)).2.1,
   (C7_pagination 205 50 50 (by decide)).2.2.2.2.1⟩

/-- C2 (amended): the upsert batch runs in one transaction inside one
`try`/`except`; if the store raises on any row, the loop aborts — the
failing row and every remaining row are not written, the uncommitted
transaction leaves the store unchanged — and the operation returns `False`;
only when every row succeeds are all rows applied in order, with `True`
returned.  The operation returns a boolean, not a count of written rows. -/
theorem C2_upsert_batch_aborts (fails : StorageEvent → Bool) (now : Nat)
    (store : List DbRow) (events : List StorageEvent) :
    upsertEvents fails now store events =
      if events.any fails then (false, store)
      else (true, events.foldl (fun st e => upsertOne now st e) store) := by
  have hloop : ∀ (evs : List StorageEvent) (pending : List DbRow),
      upsertLoop fails now pending evs =
        if evs.any fails then none
        else some (evs.foldl (fun st e => upsertOne now st e) pending) := by
    intro evs
    induction evs with
    | nil => intro pending; simp [upsertLoop]
    | cons e rest ih =>
      intro pending
      by_cases hf : fails e
      · simp [upsertLoop, hf]
      · simp [upsertLoop, hf, ih]
  unfold upsertEvents
  rw [hloop events store]
  by_cases ha : events.any fails <;> simp [ha]

/-- Sample storage-mode record for the upsert counterexample. -/
def sampleEventA : StorageEvent :=
  { id := .str "E1", name := .str "A", url := .null, date := .null,
    time := .null, datetime := .null, timezone := .null, status := .null,
    venue_id := .null, venue_name := .null, venue_address := .null,
    venue_city := .null, venue_state := .null, venue_country := .null,
    venue_postal_code := .null, venue_timezone := .null,
    venue_location := .obj .nil, classification_segment := .null,
    classification_genre := .null, classification_subgenre := .null,
    classification_type := .null, classification_subtype := .null,
    classification_family := .bool false, price_ranges := .arr .nil,
    images := .arr .nil, info := .null, please_note := .null }

/-- Second sample record (distinct id), following the failing one. -/
def sampleEventB : StorageEvent :=
  { sampleEventA with id := .str "E2", name := .str "B" }

/-- Failure oracle: the store raises exactly on the row with id "E1". -/
def failsE1 : StorageEvent → Bool := fun e => decide (e.id = .str "E1")

/-- C2 counterexample: in the batch `[E1, E2]` where writing E1 fails, the
remaining row E2 is NOT processed (the store stays empty) and the operation
returns the boolean `false`, not the count 1 of successfully written rows
that the claim requires. -/
theorem C2_counterexample :
    upsertEvents failsE1 7 [] [sampleEventA, sampleEventB] = (false, []) := by
  decide

/-- C3 counterexample: upserting a record whose id already exists does NOT
refresh the classification segment — the stored row keeps its old segment
"Music" even though the new record carries "Sports". -/
def row0 : DbRow :=
  { id := .str "E1", name := .str "Old", url := .null, date := .null,
    time := .null, datetime := .null, timezone := .null, status := .str "onsale",
    venue_id := .null, venue_name := .str "V", venue_address := .null,
    venue_city := .str "Prague", venue_state := .null, venue_country := .null,
    venue_postal_code := .null, venue_timezone := .null,
    venue_location := [lbrace, rbrace], classification_segment := .str "Music",
    classification_genre := .str "Rock", classification_subgenre := .null,
    classification_type := .null, classification_subtype := .null,
    classification_family := .bool false, price_ranges := ['[', ']'],
    images := ['[', ']'], info := .null, please_note := .null,
    created_at := 1, updated_at := 1 }

/-- The refreshed record with the same id but a different classification. -/
def evNew : StorageEvent :=
  { id := .str "E1", name := .str "New", url := .null, date := .null,
    time := .null, datetime := .null, timezone := .null,
    status := .str "cancelled", venue_id := .null, venue_name := .str "V2",
    venue_address := .null, venue_city := .str "Brno", venue_state := .null,
    venue_country := .null, venue_postal_code := .null, venue_timezone := .null,
    venue_location := .obj .nil, classification_segment := .str "Sports",
    classification_genre := .str "Soccer", classification_subgenre := .null,
    classification_type := .null, classification_subtype := .null,
    classification_family := .bool false, price_ranges := .arr .nil,
    images := .arr .nil, info := .null, please_note := .null }

theorem C3_counterexample :
    (upsertOne 5 [row0] evNew).map (fun r => r.classification_segment) =
      [.str "Music"] ∧
    (upsertOne 5 [row0] evNew).map (fun r => r.classification_genre) =
      [.str "Rock"] ∧
    evNew.classification_segment = .str "Sports" ∧
    evNew.classification_genre = .str "Soccer" ∧
    evNew.id = row0.id := by
  decide

/-- C3 (amended): for a normalized event whose id already exists in the
store, the upsert leaves exactly one row with that id; it keeps `id` and the
creation timestamp, refreshes `name`, `url`, `date`, `time`, `datetime`,
`status`, `venue_name`, `venue_city` and the update timestamp to the new
record's values, and leaves every other column — in particular the
classification segment and genre — at its stored value. -/
theorem C3_upsert_update (now : Nat) (a b : List DbRow) (r : DbRow)
    (e : StorageEvent) (hr : r.id = e.id)
    (ha : ∀ x ∈ a, x.id ≠ e.id) (hb : ∀ x ∈ b, x.id ≠ e.id) :
    upsertOne now (a ++ r :: b) e =
      a ++ { r with name := e.name, url := e.url, date := e.date,
                    time := e.time, datetime := e.datetime, status := e.status,
                    venue_name := e.venue_name, venue_city := e.venue_city,
                    updated_at := now } :: b := by
  have hmap : ∀ (l : List DbRow), (∀ x ∈ l, x.id ≠ e.id) →
      l.map (fun x => if x.id = e.id then applyUpdate now e x else x) = l := by
    intro l hl
    induction l with
    | nil => rfl
    | cons x xs ih =>
      have hx := hl x (by simp)
      simp only [List.map_cons, if_neg hx]
      rw [ih (fun y hy => hl y (by simp [hy]))]
  have hany : (a ++ r :: b).any (fun x => decide (x.id = e.id)) = true := by
    simp [List.any_append, List.any_cons, hr]
  unfold upsertOne
  rw [hany]
  simp only [if_true, List.map_append, List.map_cons, if_pos hr]
  rw [hmap a ha, hmap b hb]
  rfl

theorem C3_upsert_update_witness :
    upsertOne 5 ([] ++ row0 :: []) evNew =
      [] ++ { row0 with name := evNew.name, url := evNew.url, date := evNew.date,
                        time := evNew.time, datetime := evNew.datetime,
                        status := evNew.status, venue_name := evNew.venue_name,
                        venue_city := evNew.venue_city, updated_at := 5 } :: [] :=
  C3_upsert_update 5 [] [] row0 evNew (by decide) (by simp) (by simp)

/-- Decoding failure (empty text or unparseable text) degrades to the
default value. -/
theorem decodeOr_fail (txt : List Char) (dflt : JVal)
    (h : txt.isEmpty = true ∨ jsonLoads txt = none) : decodeOr txt dflt = dflt := by
  unfold decodeOr
  rcases h with h | h
  · rw [if_pos h]
  · by_cases he : txt.isEmpty
    · rw [if_pos he]
    · rw [if_neg he, h]

/-- C6: for every stored row, if decoding a serialized field (priceRanges,
images, or venue location) fails on corrupt or empty text, denormalization
substitutes the empty sequence / empty mapping for that field and still
returns all the row's other fields exactly as if the field had held the
empty serialization; no single bad field aborts reconstruction of the row. -/
theorem C6_decode_fault_tolerant :
    (∀ row : DbRow,
      (row.price_ranges.isEmpty = true ∨ jsonLoads row.price_ranges = none) →
      rowTransform row = rowTransform { row with price_ranges := ['[', ']'] }) ∧
    (∀ row : DbRow,
      (row.images.isEmpty = true ∨ jsonLoads row.images = none) →
      rowTransform row = rowTransform { row with images := ['[', ']'] }) ∧
    (∀ row : DbRow,
      (row.venue_location.isEmpty = true ∨ jsonLoads row.venue_location = none) →
      rowTransform row = rowTransform { row with venue_location := [lbrace, rbrace] }) := by
  have hbr : decodeOr ['[', ']'] (JVal.arr .nil) = .arr .nil := by decide
  have hob : decodeOr [lbrace, rbrace] (JVal.obj .nil) = .obj .nil := by decide
  refine ⟨?_, ?_, ?_⟩
  · intro row h
    have h1 : decodeOr row.price_ranges (.arr .nil) = .arr .nil := decodeOr_fail _ _ h
    cases row
    simp_all [rowTransform]
  · intro row h
    have h1 : decodeOr row.images (.arr .nil) = .arr .nil := decodeOr_fail _ _ h
    cases row
    simp_all [rowTransform]
  · intro row h
    have h1 : decodeOr row.venue_location (.obj .nil) = .obj .nil := decodeOr_fail _ _ h
    cases row
    simp_all [rowTransform]

/-- A stored row whose priceRanges column holds corrupt (non-JSON) text. -/
def badRow : DbRow :=
  { row0 with id := .str "E7", price_ranges := ['n', 'o', 't'] }

theorem C6_decode_fault_tolerant_witness :
    rowTransform badRow = rowTransform { badRow with price_ranges := ['[', ']'] } :=
  C6_decode_fault_tolerant.1 badRow (Or.inr (by decide))

/-- C9: the stored venue name is the sole presence sentinel for venue
reconstruction — for a raw event whose first venue carries data (for
example a city) but a null name, storage-mode normalization followed by
denormalization yields `venue = null`, discarding the other venue fields;
symmetrically, a null classification segment discards the other
classification fields. -/
theorem C9_presence_sentinel (now : Nat) (e : JVal) (s : StorageEvent)
    (vi : VenueInfo) (ci : ClassificationInfo)
    (hs : transform_event_storage e = .ok s) :
    (extract_venue_info e = .ok (some vi) → vi.name = .null →
(rowTransform (insertRow now s)).venue = none) ∧
    (extract_classifications e = .ok (some ci) → ci.segment = .null →
      (rowTransform (insertRow now s)).classifications = none) := by
  obtain ⟨vio, cio, i, n, u, d, t, dt, tz, st, pr, im, inf, pn,
    hvi, hci, _, _, _, _, _, _, _, _, _, _, _, _, hrec⟩ := storage_inv e s hs
  constructor
  · intro hv hnm
    rw [hvi] at hv
    have hvio : vio = some vi := by injection hv
    subst hvio
    have hname : s.venue_name = .null := by rw [hrec]; simpa using hnm
    simp [rowTransform, insertRow, hname, pyTruthy]
  · intro hc hseg
    rw [hci] at hc
    have hcio : cio = some ci := by injection hc
    subst hcio
    have hsegs : s.classification_segment = .null := by rw [hrec]; simpa using hseg
    simp [rowTransform, insertRow, hsegs, pyTruthy]

/-- A raw event whose first venue has a city but no name and whose first
classification has a genre but no segment. -/
def eventNoNames : JVal :=
  .obj (jobj [("id", .str "E9"),
    ("_embedded", .obj (jobj [("venues",
      .arr (jarr [.obj (jobj [("city", .obj (jobj [("name", .str "Prague")]))])]))])),
    ("classifications",
      .arr (jarr [.obj (jobj [("genre", .obj (jobj [("name", .str "Rock")]))])]))])

/-- The venue dictionary extracted from `eventNoNames`. -/
def viNoName : VenueInfo :=
  { id := .null, name := .null, address := .null, city := .str "Prague",
    state := .null, country := .null, postal_code := .null, timezone := .null,
    location := .obj .nil }

/-- The classification dictionary extracted from `eventNoNames`. -/
def ciNoSeg : ClassificationInfo :=
  { segment := .null, genre := .str "Rock", subgenre := .null, type := .null,
    subtype := .null, family := .bool false }

/-- The storage-mode record of `eventNoNames`. -/
def sNoNames : StorageEvent :=
  { id := .str "E9", name := .null, url := .null, date := .null, time := .null,
    datetime := .null, timezone := .null, status := .null, venue_id := .null,
    venue_name := .null, venue_address := .null, venue_city := .str "Prague",
    venue_state := .null, venue_country := .null, venue_postal_code := .null,
    venue_timezone := .null, venue_location := .obj .nil,
    classification_segment := .null, classification_genre := .str "Rock",
    classification_subgenre := .null, classification_type := .null,
    classification_subtype := .null, classification_family := .bool false,
    price_ranges := .arr .nil, images := .arr .nil, info := .null,
    please_note := .null }

theorem C9_presence_sentinel_witness :
    (rowTransform (insertRow 3 sNoNames)).venue = none ∧
    (rowTransform (insertRow 3 sNoNames)).classifications = none :=
  ⟨(C9_presence_sentinel 3 eventNoNames sNoNames viNoName ciNoSeg
      (by decide)).1 (by decide) (by decide),
   (C9_presence_sentinel 3 eventNoNames sNoNames viNoName ciNoSeg
      (by decide)).2 (by decide) (by decide)⟩

/-- C5: the priceRanges and images sequences round-trip losslessly through
storage serialization — decoding the serialized text of a stored record
recovers exactly the value that was serialized (order preserved) — and an
absent sequence in the raw record is stored as the empty sequence and
decoded back as the empty sequence by the read path. -/
theorem C5_serialization_roundtrip :
    (∀ v : JVal, jsonLoads (dumpVal v) = some v) ∧
    (∀ (kvs : JObj) (s : StorageEvent) (now : Nat),
      lookupKV kvs "priceRanges" = none →
      transform_event_storage (.obj kvs) = .ok s →
      s.price_ranges = .arr .nil ∧
      (rowTransform (insertRow now s)).price_ranges = .arr .nil) ∧
    (∀ (kvs : JObj) (s : StorageEvent) (now : Nat),
      lookupKV kvs "images" = none →
      transform_event_storage (.obj kvs) = .ok s →
      s.images = .arr .nil ∧
      (rowTransform (insertRow now s)).images = .arr .nil) := by
  have hdec : decodeOr (dumpVal (JVal.arr .nil)) (.arr .nil) = .arr .nil := by decide
  refine ⟨jsonLoads_dump, ?_, ?_⟩
  · intro kvs s now hlk hs
    obtain ⟨vio, cio, i, n, u, d, t, dt, tz, st, pr, im, inf, pn,
      _, _, _, _, _, _, _, _, _, _, hpr, _, _, _, hrec⟩ := storage_inv _ s hs
    have hget : pr = .arr .nil := by
      have : pyGet (.obj kvs) "priceRanges" (.arr .nil) = .ok (.arr .nil) := by
        simp [pyGet, hlk]
      rw [this] at hpr
      injection hpr with h2
      exact h2.symm
    have hsp : s.price_ranges = .arr .nil := by rw [hrec]; simpa using hget
    refine ⟨hsp, ?_⟩
    simp [rowTransform, insertRow, hsp, hdec]
  · intro kvs s now hlk hs
    obtain ⟨vio, cio, i, n, u, d, t, dt, tz, st, pr, im, inf, pn,
      _, _, _, _, _, _, _, _, _, _, _, him, _, _, hrec⟩ := storage_inv _ s hs
    have hget : im = .arr .nil := by
      have : pyGet (.obj kvs) "images" (.arr .nil) = .ok (.arr .nil) := by
        simp [pyGet, hlk]
      rw [this] at him
      injection him with h2
      exact h2.symm
    have hsp : s.images = .arr .nil := by rw [hrec]; simpa using hget
    refine ⟨hsp, ?_⟩
    simp [rowTransform, insertRow, hsp, hdec]

/-- The storage-mode record of the empty raw event. -/
def sEmpty : StorageEvent :=
  { id := .null, name := .null, url := .null, date := .null, time := .null,
    datetime := .null, timezone := .null, status := .null, venue_id := .null,
    venue_name := .null, venue_address := .null, venue_city := .null,
    venue_state := .null, venue_country := .null, venue_postal_code := .null,
    venue_timezone := .null, venue_location := .obj .nil,
    classification_segment := .null, classification_genre := .null,
    classification_subgenre := .null, classification_type := .null,
    classification_subtype := .null, classification_family := .bool false,
    price_ranges := .arr .nil, images := .arr .nil, info := .null,
    please_note := .null }

theorem C5_serialization_roundtrip_witness :
    jsonLoads (dumpVal (.arr (jarr [.num 3, .str "czk"]))) =
      some (.arr (jarr [.num 3, .str "czk"])) ∧
    (sEmpty.price_ranges = .arr .nil ∧
      (rowTransform (insertRow 2 sEmpty)).price_ranges = .arr .nil) ∧
    (sEmpty.images = .arr .nil ∧
      (rowTransform (insertRow 2 sEmpty)).images = .arr .nil) :=
  ⟨C5_serialization_roundtrip.1 _,
   C5_serialization_roundtrip.2.1 .nil sEmpty 2 (by decide) (by decide),
   C5_serialization_roundtrip.2.2 .nil sEmpty 2 (by decide) (by decide)⟩

/-- C8: the reduced simple transform equals the projection of the full
storage-mode normalized record onto its fields — whenever the full
normalization of a raw event succeeds, the simple transform succeeds with
exactly the projected field values (id, name, date, time, venue name,
classification segment, url). -/
theorem C8_simple_is_projection (e : JVal) (s : StorageEvent)
    (h : transform_event_storage e = .ok s) :
    transform_event_simple e = .ok (projSimple s) := by
  obtain ⟨vio, cio, i, n, u, d, t, dt, tz, st, pr, im, inf, pn,
    hvi, hci, hi, hn, hu, hd, ht, hdt, htz, hst, hpr, him, hinf, hpn, hrec⟩ :=
    storage_inv e s h
  subst hrec
  simp [transform_event_simple, hi, hn, hd, ht, hvi, hci, hu, projSimple,
    pure, Except.pure]

/-- The end-to-end example event of the specification. -/
def eventJazz : JVal :=
  .obj (jobj [("id", .str "E1"), ("name", .str "Jazz Night"),
    ("dates", .obj (jobj [("start", .obj (jobj [("localDate", .str "2025-07-01"),
      ("localTime", .str "20:00")]))])),
    ("_embedded", .obj (jobj [("venues", .arr (jarr [.obj (jobj
      [("name", .str "Blue Note"),
       ("city", .obj (jobj [("name", .str "Prague")]))])]))])),
    ("classifications", .arr (jarr [.obj (jobj
      [("segment", .obj (jobj [("name", .str "Music")]))])]))])

/-- The storage-mode record of `eventJazz`. -/
def sJazz : StorageEvent :=
  { id := .str "E1", name := .str "Jazz Night", url := .null,
    date := .str "2025-07-01", time := .str "20:00", datetime := .null,
    timezone := .null, status := .null, venue_id := .null,
    venue_name := .str "Blue Note", venue_address := .null,
    venue_city := .str "Prague", venue_state := .null, venue_country := .null,
    venue_postal_code := .null, venue_timezone := .null,
    venue_location := .obj .nil, classification_segment := .str "Music",
    classification_genre := .null, classification_subgenre := .null,
    classification_type := .null, classification_subtype := .null,
    classification_family := .bool false, price_ranges := .arr .nil,
    images := .arr .nil, info := .null, please_note := .null }

theorem C8_simple_is_projection_witness :
    transform_event_simple eventJazz = .ok (projSimple sJazz) :=
  C8_simple_is_projection eventJazz sJazz (by decide)

/-- A key that is either absent or bound to a dict (so that a chained
`.get` cannot raise). -/
def keyObjOK (kvs : JObj) (k : String) : Bool :=
  match lookupKV kvs k with
  | none => true
  | some (.obj _) => true
  | some _ => false

/-- Raw events on which venue extraction is exception-free: the event is a
dict; `_embedded`, when present, is a dict; its `venues`, when present, is a
list; and the first venue, if any, is a dict whose `address`, `city`,
`state` and `country` are each absent or a dict. -/
def wfVenueB : JVal → Bool
  | .obj kvs =>
    (match lookupKV kvs "_embedded" with
     | none => true
     | some (.obj m) =>
       (match lookupKV m "venues" with
        | none => true
        | some (.arr .nil) => true
        | some (.arr (.cons v _)) =>
          (match v with
           | .obj vk =>
             keyObjOK vk "address" && keyObjOK vk "city" &&
               keyObjOK vk "state" && keyObjOK vk "country"
           | _ => false)
        | some _ => false)
     | some _ => false)
  | _ => false

/-- Raw events on which classification extraction is exception-free. -/
def wfClsB : JVal → Bool
  | .obj kvs =>
    (match lookupKV kvs "classifications" with
     | none => true
     | some (.arr .nil) => true
     | some (.arr (.cons c _)) =>
       (match c with
        | .obj ck =>
          keyObjOK ck "segment" && keyObjOK ck "genre" &&
            keyObjOK ck "subGenre" && keyObjOK ck "type" && keyObjOK ck "subType"
        | _ => false)
     | some _ => false)
  | _ => false

@[simp] theorem pure_eq_ok {α : Type} (a : α) : (pure a : Except Unit α) = .ok a := rfl

theorem getPath2_ok (vk : JObj) (k1 k2 : String) (h : keyObjOK vk k1 = true) :
    ∃ r, getPath2 (.obj vk) k1 k2 = .ok r := by
  unfold keyObjOK at h
  cases hl : lookupKV vk k1 with
  | none => exact ⟨.null, by simp [getPath2, pyGet, hl, lookupKV]⟩
  | some w =>
    rw [hl] at h
    cases w with
    | obj m2 => exact ⟨(lookupKV m2 k2).getD .null, by simp [getPath2, pyGet, hl]⟩
    | null => simp at h
    | bool b => simp at h
    | num n => simp at h
    | str s => simp at h
    | arr a => simp at h

/-- C4 counterexample: the claim says extraction never raises, for any
shape; but a present intermediate key bound to null (`_embedded: null`)
makes `extract_venue_info` raise `AttributeError`, and a truthy non-list
classification value makes `extract_classifications` raise. -/
theorem C4_counterexample :
    extract_venue_info (.obj (jobj [("_embedded", .null)])) = .error () ∧
    extract_classifications (.obj (jobj [("classifications", .num 5)])) =
      .error () := by
  decide

/-- C4 (amended): venue and classification extraction never raise on raw
events whose present intermediate structures are well-typed (dicts where
dicts are accessed, a list for the venue/classification lists): absent keys
yield null for the affected fields, and an absent venue or classification
list yields null for the whole extracted value; but a null-valued or
wrongly-typed intermediate raises instead of yielding null. -/
theorem C4_extraction_total_on_wf (e : JVal) :
    (wfVenueB e = true → ∃ r, extract_venue_info e = .ok r) ∧
    (wfClsB e = true → ∃ r, extract_classifications e = .ok r) ∧
    (∀ kvs : JObj, e = .obj kvs → lookupKV kvs "_embedded" = none →
      extract_venue_info e = .ok none) ∧
    (∀ kvs : JObj, e = .obj kvs → lookupKV kvs "classifications" = none →
      extract_classifications e = .ok none) := by
  refine ⟨?_, ?_, ?_, ?_⟩
  · intro h
    cases e with
    | obj kvs =>
      cases hemb : lookupKV kvs "_embedded" with
      | none =>
        exact ⟨none, by simp [extract_venue_info, pyGet, hemb, lookupKV, pyTruthy]⟩
      | some val =>
        cases val with
        | obj m =>
          simp only [wfVenueB, hemb] at h
          cases hven : lookupKV m "venues" with
          | none =>
            exact ⟨none, by simp [extract_venue_info, pyGet, hemb, hven, pyTruthy]⟩
          | some w =>
            rw [hven] at h
            cases w with
            | arr a =>
              cases a with
              | nil =>
                exact ⟨none, by simp [extract_venue_info, pyGet, hemb, hven, pyTruthy]⟩
              | cons v vs =>
                cases v with
                | obj vk =>
                  simp only [Bool.and_eq_true] at h
                  obtain ⟨⟨⟨h1, h2⟩, h3⟩, h4⟩ := h
                  obtain ⟨r1, hr1⟩ := getPath2_ok vk "address" "line1" h1
                  obtain ⟨r2, hr2⟩ := getPath2_ok vk "city" "name" h2
                  obtain ⟨r3, hr3⟩ := getPath2_ok vk "state" "name" h3
                  obtain ⟨r4, hr4⟩ := getPath2_ok vk "country" "name" h4
                  refine ⟨some { id := Option.getD (lookupKV vk "id") JVal.null,
                                 name := Option.getD (lookupKV vk "name") JVal.null,
                                 address := r1, city := r2, state := r3, country := r4,
                                 postal_code := Option.getD (lookupKV vk "postalCode") JVal.null,
                                 timezone := Option.getD (lookupKV vk "timezone") JVal.null,
                                 location := Option.getD (lookupKV vk "location") (JVal.obj JObj.nil) }, ?_⟩
                  simp [extract_venue_info, pyGet, hemb, hven, pyTruthy, pyFirst,
                    hr1, hr2, hr3, hr4]
                | null => simp at h
                | bool b => simp at h
                | num n => simp at h
                | str s => simp at h
                | arr a2 => simp at h
            | null => simp at h
            | bool b => simp at h
            | num n => simp at h
            | str s => simp at h
            | obj o2 => simp at h
        | null => simp [wfVenueB, hemb] at h
        | bool b => simp [wfVenueB, hemb] at h
        | num n => simp [wfVenueB, hemb] at h
        | str s => simp [wfVenueB, hemb] at h
        | arr a => simp [wfVenueB, hemb] at h
    | null => simp [wfVenueB] at h
    | bool b => simp [wfVenueB] at h
    | num n => simp [wfVenueB] at h
    | str s => simp [wfVenueB] at h
    | arr a => simp [wfVenueB] at h
  · intro h
    cases e with
    | obj kvs =>
      cases hcl : lookupKV kvs "classifications" with
      | none =>
        exact ⟨none, by simp [extract_classifications, pyGet, hcl, pyTruthy]⟩
      | some w =>
        cases w with
        | arr a =>
          cases a with
          | nil =>
            exact ⟨none, by simp [extract_classifications, pyGet, hcl, pyTruthy]⟩
          | cons c cs =>
            cases c with
            | obj ck =>
              simp only [wfClsB, hcl, Bool.and_eq_true] at h
              obtain ⟨⟨⟨⟨h1, h2⟩, h3⟩, h4⟩, h5⟩ := h
              obtain ⟨r1, hr1⟩ := getPath2_ok ck "segment" "name" h1
              obtain ⟨r2, hr2⟩ := getPath2_ok ck "genre" "name" h2
              obtain ⟨r3, hr3⟩ := getPath2_ok ck "subGenre" "name" h3
              obtain ⟨r4, hr4⟩ := getPath2_ok ck "type" "name" h4
              obtain ⟨r5, hr5⟩ := getPath2_ok ck "subType" "name" h5
              refine ⟨some { segment := r1, genre := r2, subgenre := r3,
                             type := r4, subtype := r5,
                             family := Option.getD (lookupKV ck "family") (JVal.bool false) }, ?_⟩
              simp [extract_classifications, pyGet, hcl, pyTruthy, pyFirst,
                hr1, hr2, hr3, hr4, hr5]
            | null => simp [wfClsB, hcl] at h
            | bool b => simp [wfClsB, hcl] at h
            | num n => simp [wfClsB, hcl] at h
            | str s => simp [wfClsB, hcl] at h
            | arr a2 => simp [wfClsB, hcl] at h
        | null => simp [wfClsB, hcl] at h
        | bool b => simp [wfClsB, hcl] at h
        | num n => simp [wfClsB, hcl] at h
        | str s => simp [wfClsB, hcl] at h
        | obj o2 => simp [wfClsB, hcl] at h
    | null => simp [wfClsB] at h
    | bool b => simp [wfClsB] at h
    | num n => simp [wfClsB] at h
    | str s => simp [wfClsB] at h
    | arr a => simp [wfClsB] at h
  · intro kvs he hemb
    subst he
    simp [extract_venue_info, pyGet, hemb, lookupKV, pyTruthy]
  · intro kvs he hcl
    subst he
    simp [extract_classifications, pyGet, hcl, pyTruthy]

theorem C4_extraction_total_on_wf_witness :
    (∃ r, extract_venue_info (.obj .nil) = .ok r) ∧
    (∃ r, extract_classifications (.obj .nil) = .ok r) ∧
    extract_venue_info (.obj .nil) = .ok none :=
  ⟨(C4_extraction_total_on_wf (.obj .nil)).1 (by decide),
   (C4_extraction_total_on_wf (.obj .nil)).2.1 (by decide),
   (C4_extraction_total_on_wf (.obj .nil)).2.2.1 .nil rfl (by decide)⟩

/-- Lower-casing of a character list (Python `str.lower()` on ASCII). -/
def lowerStr (s : List Char) : List Char := s.map Char.toLower

/-- A stored row for a Berlin theatre event within the date window. -/
def rowBerlin : DbRow :=
  { id := .str "B1", name := .str "Berlin Gala", url := .null,
    date := .str "2025-06-01", time := .str "19:00", datetime := .null,
    timezone := .null, status := .str "onsale", venue_id := .null,
    venue_name := .str "Arena", venue_address := .null,
    venue_city := .str "Berlin", venue_state := .null,
    venue_country := .str "Germany", venue_postal_code := .null,
    venue_timezone := .null, venue_location := [lbrace, rbrace],
    classification_segment := .str "Theatre", classification_genre := .null,
    classification_subgenre := .null, classification_type := .null,
    classification_subtype := .null, classification_family := .bool false,
    price_ranges := ['[', ']'], images := ['[', ']'], info := .null,
    please_note := .null, created_at := 0, updated_at := 0 }

/-- C1 (code-bug evidence): requesting `city=Prague` and
`classification=music` still returns the stored Berlin/Theatre row.  Only
the date-range filter is live in the query; the city, country, keyword and
classification WHERE clauses are commented out in the handler, even though
the response's `filters_applied` section claims they were applied.  The row
matches neither the city filter nor any requested classification
(case-insensitively), contradicting the claim. -/
theorem C1_filters_not_applied :
    get_events_upcoming [rowBerlin] ("2025-01-01".data) ("2025-12-31".data)
        ("Prague".data) ("CZ".data) ("music".data) none 50 =
      .success [rowTransform rowBerlin] (paginationBlock 1 50 1)
        { city := "Prague".data, country := "CZ".data,
          classifications := ["music".data], keyword := none,
          date_from := "2025-01-01".data, date_to := "2025-12-31".data } ∧
    rowBerlin.venue_city = .str "Berlin" ∧
    lowerStr ("Berlin".data) ≠ lowerStr ("Prague".data) ∧
    rowBerlin.classification_segment = .str "Theatre" ∧
    lowerStr ("Theatre".data) ∉ [lowerStr ("music".data)] := by
  refine ⟨?_, by decide, by decide, by decide, by decide⟩
  decide
